import Mathlib

/-!
Verification of the acquisition-control core of the adl_pci9118 comedi driver
(drivers/staging/comedi/drivers/adl_pci9118.c).

The driver's hardware-independent logic is embedded shallowly: machine
integers become `Nat` (with an explicit `% 2^32` where a 32-bit overflow can
occur), channel lists become `List Nat` holding the packed
channel/range/reference words, and functions that mutate driver state become
explicit state-passing functions.  Constants that the driver takes from
headers outside the provided source tree (comedi.h trigger encodings,
8253.h's oscillator base) are reproduced with their standard values and
marked as such.
-/

set_option maxRecDepth 10000

namespace PCI9118

/-- Modelled from the spec: trigger-source bit encodings of the comedi
command interface (comedi.h is not part of the provided sources; these are
the standard values the driver is compiled against). -/
def TRIG_NONE : Nat := 0x01

def TRIG_NOW : Nat := 0x02

def TRIG_FOLLOW : Nat := 0x04

def TRIG_TIMER : Nat := 0x10

def TRIG_COUNT : Nat := 0x20

def TRIG_EXT : Nat := 0x40

def TRIG_INT : Nat := 0x80

/-- Modelled from the spec: comedi command flag requesting a wake-up at the
end of every scan. -/
def TRIG_WAKE_EOS : Nat := 0x20

/-- Modelled from the spec: comedi rounding-mode field.  The
round-to-nearest mode is encoded as zero inside the two-bit rounding field
of the command flags. -/
def TRIG_ROUND_NEAREST : Nat := 0x00000000

def TRIG_ROUND_MASK : Nat := 0x00030000

/-- Modelled from the spec: differential analog-reference code (comedi.h). -/
def AREF_DIFF : Nat := 0x02

/-- First four entries of both range tables are bipolar
(PCI9118_BIPOLAR_RANGES in the source). -/
def PCI9118_BIPOLAR_RANGES : Nat := 4

/-- Modelled from the spec: chanspec accessors CR_CHAN/CR_RANGE/CR_AREF of
comedi.h: channel in bits 0-15, range in bits 16-23, reference in
bits 24-25. -/
def CR_CHAN (a : Nat) : Nat := a &&& 0xffff

def CR_RANGE (a : Nat) : Nat := (a >>> 16) &&& 0xff

def CR_AREF (a : Nat) : Nat := (a >>> 24) &&& 0x03

/-- Body of the `for (i = 1; i < n_chan; i++)` loop of `check_channel_list`:
walks the entries after the first one and rejects a reference-mode mix, a
polarity mix, or (without an external multiplexer) a differential entry
whose channel number is at or past the differential channel count.
`differencial` and `bipolar` are the flags derived from entry 0. -/
def check_channel_list_loop (usemux : Bool) (n_aichand : Nat)
    (differencial bipolar : Bool) : List Nat → Bool
  | [] => true
  | c :: rest =>
    if ((CR_AREF c == AREF_DIFF) != differencial) then false
    else if ((decide (CR_RANGE c < PCI9118_BIPOLAR_RANGES)) != bipolar) then false
    else if (!usemux && differencial && decide (n_aichand ≤ CR_CHAN c)) then false
    else check_channel_list_loop usemux n_aichand differencial bipolar rest

/-- `check_channel_list` from the source.  The driver passes the channel
array together with its length `n_chan`; here the list itself carries the
entries, so `n_chan` is its length.  `len_chanlist` is the subdevice's
`s->len_chanlist` capacity.  Returns `true` for the C result 1 (list
accepted) and `false` for 0 (rejected). -/
def check_channel_list (usemux : Bool) (n_aichand len_chanlist : Nat)
    (chanlist : List Nat) (frontadd backadd : Nat) : Bool :=
  match chanlist with
  | [] => false
  | c0 :: rest =>
    if frontadd + (c0 :: rest).length + backadd > len_chanlist then false
    else
      check_channel_list_loop usemux n_aichand
        (CR_AREF c0 == AREF_DIFF) (decide (CR_RANGE c0 < PCI9118_BIPOLAR_RANGES)) rest

/-- `defragment_dma_buffer` from the source: walks `num_samples` raw
samples, keeps those whose running position inside the padded scan falls in
`[ai_add_front, ai_add_front + chanlist_len)`, and advances the position
modulo the raw scan length `ai_add_front + chanlist_len + ai_add_back`.
Returns the compacted samples (the C code compacts them in place and
returns their count) together with the final `ai_act_dmapos`. -/
def defragment_dma_buffer (ai_add_front chanlist_len ai_add_back : Nat)
    (ai_act_dmapos : Nat) : List Nat → List Nat × Nat
  | [] => ([], ai_act_dmapos)
  | x :: rest =>
    let start_pos := ai_add_front
    let stop_pos := ai_add_front + chanlist_len
    let raw_scanlen := ai_add_front + chanlist_len + ai_add_back
    let keep := decide (start_pos ≤ ai_act_dmapos ∧ ai_act_dmapos < stop_pos)
    let next := (ai_act_dmapos + 1) % raw_scanlen
    let r := defragment_dma_buffer ai_add_front chanlist_len ai_add_back next rest
    (if keep then x :: r.1 else r.1, r.2)

/-- External-trigger user slot for the analog-input subdevice
(EXTTRG_AI in the source). -/
def EXTTRG_AI : Nat := 0

/-- Int_DTrg bit of the interrupt-control register. -/
def Int_DTrg : Nat := 0x01

/-- AdFunction_PDTrg | AdFunction_PETrg, the quiescent function-register
value written by reset and cancel. -/
def AdFunction_PDTrg_PETrg : Nat := 0xc0

/-- The session state mutated by cancellation: the three write-only
register shadows, the run descriptor fields of `struct pci9118_private`,
and the two comedi async fields (`cur_chan`, whether the `inttrig`
callback is installed) that `pci9118_ai_cancel` touches. -/
structure DevState where
  AdControlReg : Nat
  IntControlReg : Nat
  AdFunctionReg : Nat
  ai_do : Nat
  usedma : Bool
  ai_act_scan : Nat
  ai_act_dmapos : Nat
  ai_neverending : Bool
  dma_actbuf : Nat
  exttrg_users : Nat
  ai12_startstop : Nat
  cur_chan : Nat
  inttrig_set : Bool
  deriving DecidableEq, Repr

/-- `pci9118_exttrg_del` from the source (state part; the register writes it
issues are hardware effects).  Removes `source` from the 8-bit
`exttrg_users` field and, when no user remains, clears the Int_DTrg bit of
the interrupt-control shadow.  Returns the updated state and the C return
value. -/
def pci9118_exttrg_del (st : DevState) (source : Nat) : DevState × Int :=
  if source > 3 then (st, -1)
  else
    let users := st.exttrg_users &&& (0xff ^^^ (1 <<< source))
    let ictl := if users = 0 then st.IntControlReg &&& (0xff ^^^ Int_DTrg)
                else st.IntControlReg
    ({ st with exttrg_users := users, IntControlReg := ictl }, 0)

/-- `pci9118_ai_cancel` from the source (state part).  Deregisters the AI
external-trigger user, resets the function and control register shadows to
their quiescent values and zeroes the run-scoped fields; the DMA stop, the
pacer stop, the scan-queue reset, the FIFO flush and the AMCC interrupt
enable are pure register writes.  Always returns 0. -/
def pci9118_ai_cancel (st : DevState) : DevState × Int :=
  let st1 := (pci9118_exttrg_del st EXTTRG_AI).1
  ({ st1 with
      AdFunctionReg := AdFunction_PDTrg_PETrg
      AdControlReg := 0x00
      ai_do := 0
      usedma := false
      ai_act_scan := 0
      ai_act_dmapos := 0
      cur_chan := 0
      inttrig_set := false
      ai_neverending := false
      dma_actbuf := 0 }, 0)

/-- 32-bit unsigned complement mask used for the C `&= ~bit` updates. -/
def U32MASK : Nat := 0xffffffff

/-- `pci9118_decode_error_status` from the source: clears each of the four
decodable status bits (FIFO full 0x100, burst overrun 0x008, overspeed
0x004, overrun 0x002) from the `ai_maskerr` "still to be warned about"
mask, and returns 1 exactly when the status intersects `ai_maskharderr`.
Result: (new `ai_maskerr`, C return value). -/
def pci9118_decode_error_status (ai_maskerr ai_maskharderr m : Nat) :
    Nat × Nat :=
  let e1 := if m &&& 0x100 ≠ 0 then ai_maskerr &&& (U32MASK ^^^ 0x100) else ai_maskerr
  let e2 := if m &&& 0x008 ≠ 0 then e1 &&& (U32MASK ^^^ 0x008) else e1
  let e3 := if m &&& 0x004 ≠ 0 then e2 &&& (U32MASK ^^^ 0x004) else e2
  let e4 := if m &&& 0x002 ≠ 0 then e3 &&& (U32MASK ^^^ 0x002) else e3
  (e4, if m &&& ai_maskharderr ≠ 0 then 1 else 0)

/-- Default hard-error mask installed by `pci9118_common_attach` before the
user-requested `hw_err_mask` bits are removed: FIFO full (0x100), burst
overrun (0x008) and overrun (0x002). -/
def DEFAULT_HARDERR_MASK : Nat := 0x10a

/-- I8254_OSC_BASE_4MHZ from 8253.h: 250 ns per tick of the 4 MHz
oscillator. -/
def I8254_OSC_BASE_4MHZ : Nat := 250

/-- One candidate test of the divisor search: does `d` split the product
`p` into a pair of 8254 divisors, i.e. `d ∣ p` with the cofactor also in
the counter range `[2, 65536]`? -/
def divCheck (p d : Nat) : Bool :=
  decide (p % d = 0) && decide (2 ≤ p / d) && decide (p / d ≤ 65536)

/-- Bounded divisor search: tests `d, d+1, ..., d+c-1`. -/
def hasDivisorIn (p d c : Nat) : Bool :=
  match c with
  | 0 => false
  | c + 1 => divCheck p d || hasDivisorIn p (d + 1) c

/-- A product value `p` is realizable by the cascaded 8254 pair exactly
when `p = d1 * d2` for some divisors `d1, d2 ∈ [2, 65536]`. -/
def prodOK (p : Nat) : Bool := hasDivisorIn p 2 65535

/-- Largest realizable product, `65536 * 65536`. -/
def PROD_MAX : Nat := 4294967296

/-- Clamp a requested product into the realizable band `[4, PROD_MAX]`. -/
def clampQ (q : Nat) : Nat := min (max q 4) PROD_MAX

/-- Upward linear search for a realizable product: first `q + i`
(`i < c`) with `prodOK`, else `q + c`. -/
def searchUp (q c : Nat) : Nat :=
  match c with
  | 0 => q
  | c + 1 => if prodOK q then q else searchUp (q + 1) c

/-- Downward linear search for a realizable product. -/
def searchDn (q c : Nat) : Nat :=
  match c with
  | 0 => q
  | c + 1 => if prodOK q then q else searchDn (q - 1) c

/-- Least realizable product at or above the clamp of `q`. -/
def lubP (q : Nat) : Nat := searchUp (clampQ q) (PROD_MAX - clampQ q)

/-- Greatest realizable product at or below the clamp of `q`. -/
def glbP (q : Nat) : Nat := searchDn (clampQ q) (clampQ q - 4)

/-- Modelled from the spec: the realized period of 8253.h's
`i8253_cascade_ns_to_timer` (the header is not part of the provided
sources).  The realizable periods are `osc * d1 * d2` with both cascaded
divisors in `[2, 65536]`; the requested period `ns` is rounded to the
nearest realizable period when the rounding field of `roundMode` selects
round-to-nearest, and up to the next realizable period otherwise ("never
produce a period shorter than requested"), clamping at the realizable
band's edges.  Only the realized period is modelled; the divisor pair
outputs feed the pacer programming, which no claim touches. -/
def i8253_cascade_ns_to_timer (osc ns roundMode : Nat) : Nat :=
  let lo := osc * glbP (ns / osc)
  let hi := osc * lubP ((ns + osc - 1) / osc)
  if (roundMode &&& TRIG_ROUND_MASK == TRIG_ROUND_NEAREST)
      && decide (ns - lo < hi - ns) then lo else hi

/-- Result record of `pci9118_calc_divisors`: the four values the C
function returns through its `tim1`, `tim2`, `div1`, `div2` pointers. -/
structure CalcResult where
  tim1 : Nat
  tim2 : Nat
  div1 : Nat
  div2 : Nat
  deriving DecidableEq, Repr

/-- `pci9118_calc_divisors` from the source.  `tim1`/`tim2` are the
requested scan-begin and convert periods, `chans` the realized scan length,
`chnsshfront` the front padding; `ai_ns_min`/`ai_pacer_min` come from the
board descriptor and `convert_src` from the command.  Mode 1/4 clamps the
convert period to the board minimum and realizes it on the cascaded timer
pair; mode 2 derives `div1` from the convert period (clamped to the board
minimum and the pacer minimum), `div2` from the scan period divided by the
oscillator base and `div1` (clamped to the channel count, and to channel
count + 2 for convert-on-TRIG_NOW without front padding), and recomputes
both periods from the divisors.  The two mode-2 products carry the 32-bit
truncation of the C arithmetic; any other mode leaves everything
unchanged. -/
def pci9118_calc_divisors (mode : Nat) (ai_ns_min ai_pacer_min : Nat)
    (convert_src : Nat) (tim1 tim2 : Nat) (flags chans : Nat)
    (div1 div2 : Nat) (chnsshfront : Nat) : CalcResult :=
  if mode = 1 ∨ mode = 4 then
    let t2 := max tim2 ai_ns_min
    ⟨tim1, i8253_cascade_ns_to_timer I8254_OSC_BASE_4MHZ t2
        (flags &&& TRIG_ROUND_NEAREST), div1, div2⟩
  else if mode = 2 then
    let t2 := max tim2 ai_ns_min
    let d1 := max (t2 / I8254_OSC_BASE_4MHZ) ai_pacer_min
    let d2a := tim1 / I8254_OSC_BASE_4MHZ
    let d2b := max (d2a / d1) chans
    let t2r := (d1 * I8254_OSC_BASE_4MHZ) % 4294967296
    let d2c := if convert_src = TRIG_NOW ∧ chnsshfront = 0 then
                 max d2b (chans + 2)
               else d2b
    let t1r := (d1 * d2c * I8254_OSC_BASE_4MHZ) % 4294967296
    ⟨t1r, t2r, d1, d2c⟩
  else ⟨tim1, tim2, div1, div2⟩

/-- Modelled from the spec: the comedi_fc.h trigger-source check (the
header is not part of the provided sources).  Masks the source against the
allowed flags; an error is reported when the masked source is invalid
(zero) or differs from the original.  Returns (new source, error?). -/
def cfc_check_trigger_src (src flags : Nat) : Nat × Bool :=
  let s := src &&& flags
  (s, s == 0 || s != src)

/-- Modelled from the spec: comedi_fc.h uniqueness check — error when more
than one source bit is set. -/
def cfc_check_trigger_is_unique (src : Nat) : Bool :=
  src &&& (src - 1) != 0

/-- Modelled from the spec: comedi_fc.h exact-argument check; corrects the
argument to `val` and reports an error when it differs. -/
def cfc_check_trigger_arg_is (arg val : Nat) : Nat × Bool :=
  if arg ≠ val then (val, true) else (arg, false)

/-- Modelled from the spec: comedi_fc.h minimum-argument check. -/
def cfc_check_trigger_arg_min (arg val : Nat) : Nat × Bool :=
  if arg < val then (val, true) else (arg, false)

/-- Modelled from the spec: comedi_fc.h maximum-argument check. -/
def cfc_check_trigger_arg_max (arg val : Nat) : Nat × Bool :=
  if arg > val then (val, true) else (arg, false)

/-- The fields of `struct comedi_cmd` read and corrected by this driver.
`chanlist` holds the packed chanspec words; for a real command its length
equals `chanlist_len` (the C code receives the length and a pointer
separately). -/
structure AiCmd where
  start_src : Nat
  start_arg : Nat
  scan_begin_src : Nat
  scan_begin_arg : Nat
  convert_src : Nat
  convert_arg : Nat
  scan_end_src : Nat
  scan_end_arg : Nat
  stop_src : Nat
  stop_arg : Nat
  chanlist_len : Nat
  flags : Nat
  chanlist : List Nat
  deriving DecidableEq, Repr

/-- The attach-time configuration consulted by command validation and
setup: bus-master capability, the board timing minima, the external
multiplexer and differential-channel data, the subdevice's channel-list
capacity and the software sample-and-hold delay (already normalized to its
magnitude by `pci9118_common_attach`). -/
structure Cfg where
  master : Bool
  ai_ns_min : Nat
  ai_pacer_min : Nat
  usemux : Bool
  n_aichand : Nat
  len_chanlist : Nat
  softsshdelay : Nat
  deriving DecidableEq, Repr

/-- Step 1 of `pci9118_ai_cmdtest`: trivial validity of the five trigger
sources.  TRIG_TIMER/TRIG_EXT scan-begin and TRIG_NOW convert are offered
only on bus-master-capable configurations. -/
def cmdtest_step1 (cfg : Cfg) (cmd : AiCmd) : AiCmd × Bool :=
  let r1 := cfc_check_trigger_src cmd.start_src (TRIG_NOW ||| TRIG_EXT ||| TRIG_INT)
  let sbflags := TRIG_FOLLOW ||| (if cfg.master then TRIG_TIMER ||| TRIG_EXT else 0)
  let r2 := cfc_check_trigger_src cmd.scan_begin_src sbflags
  let cvflags := TRIG_TIMER ||| TRIG_EXT ||| (if cfg.master then TRIG_NOW else 0)
  let r3 := cfc_check_trigger_src cmd.convert_src cvflags
  let r4 := cfc_check_trigger_src cmd.scan_end_src TRIG_COUNT
  let r5 := cfc_check_trigger_src cmd.stop_src (TRIG_COUNT ||| TRIG_NONE ||| TRIG_EXT)
  ({ cmd with start_src := r1.1, scan_begin_src := r2.1, convert_src := r3.1,
              scan_end_src := r4.1, stop_src := r5.1 },
   r1.2 || r2.2 || r3.2 || r4.2 || r5.2)

/-- Step 2 of `pci9118_ai_cmdtest`: sources unique and mutually
compatible. -/
def cmdtest_step2 (cmd : AiCmd) : Bool :=
  cfc_check_trigger_is_unique cmd.start_src ||
  cfc_check_trigger_is_unique cmd.scan_begin_src ||
  cfc_check_trigger_is_unique cmd.convert_src ||
  cfc_check_trigger_is_unique cmd.stop_src ||
  (cmd.start_src == TRIG_EXT && cmd.scan_begin_src == TRIG_EXT) ||
  (cmd.start_src == TRIG_INT && cmd.scan_begin_src == TRIG_INT) ||
  ((cmd.scan_begin_src &&& (TRIG_TIMER ||| TRIG_EXT) != 0) &&
   (cmd.convert_src &&& (TRIG_TIMER ||| TRIG_NOW) == 0)) ||
  ((cmd.scan_begin_src == TRIG_FOLLOW) &&
   (cmd.convert_src &&& (TRIG_TIMER ||| TRIG_EXT) == 0)) ||
  (cmd.stop_src == TRIG_EXT && cmd.scan_begin_src == TRIG_EXT)

/-- Step 3 of `pci9118_ai_cmdtest`: trivial argument validity, including
the silent rewrite of a TRIG_TIMER/TRIG_TIMER command with a single-sample
scan into a TRIG_FOLLOW command (scan-begin period moved into the convert
period). -/
def cmdtest_step3 (cfg : Cfg) (cmd : AiCmd) : AiCmd × Bool :=
  let r1 := if cmd.start_src = TRIG_NOW ∨ cmd.start_src = TRIG_EXT then
              cfc_check_trigger_arg_is cmd.start_arg 0
            else (cmd.start_arg, false)
  let r2 := if cmd.scan_begin_src &&& (TRIG_FOLLOW ||| TRIG_EXT) ≠ 0 then
              cfc_check_trigger_arg_is cmd.scan_begin_arg 0
            else (cmd.scan_begin_arg, false)
  let rw := cmd.scan_begin_src = TRIG_TIMER ∧ cmd.convert_src = TRIG_TIMER ∧
            cmd.scan_end_arg = 1
  let sbsrc := if rw then TRIG_FOLLOW else cmd.scan_begin_src
  let cva0 := if rw then r2.1 else cmd.convert_arg
  let sba0 := if rw then 0 else r2.1
  let r3 := if sbsrc = TRIG_TIMER then cfc_check_trigger_arg_min sba0 cfg.ai_ns_min
            else (sba0, false)
  let extHit := sbsrc = TRIG_EXT ∧ r3.1 ≠ 0
  let sba1 := if extHit then 0 else r3.1
  let sea0 := if extHit then (cfc_check_trigger_arg_max cmd.scan_end_arg 65535).1
              else cmd.scan_end_arg
  let r5 := if cmd.convert_src &&& (TRIG_TIMER ||| TRIG_NOW) ≠ 0 then
              cfc_check_trigger_arg_min cva0 cfg.ai_ns_min
            else (cva0, false)
  let r6 := if cmd.convert_src = TRIG_EXT then cfc_check_trigger_arg_is r5.1 0
            else (r5.1, false)
  let r7 := if cmd.stop_src = TRIG_COUNT then cfc_check_trigger_arg_min cmd.stop_arg 1
            else cfc_check_trigger_arg_is cmd.stop_arg 0
  let r8 := cfc_check_trigger_arg_min cmd.chanlist_len 1
  let r9 := cfc_check_trigger_arg_min sea0 r8.1
  let multBad := r9.1 % r8.1 ≠ 0
  let sea1 := if multBad then r8.1 * (r9.1 / r8.1) else r9.1
  ({ cmd with start_arg := r1.1, scan_begin_src := sbsrc, scan_begin_arg := sba1,
              convert_arg := r6.1, stop_arg := r7.1, chanlist_len := r8.1,
              scan_end_arg := sea1 },
   r1.2 || r2.2 || r3.2 || decide extHit || r5.2 || r6.2 || r7.2 || r8.2 ||
   r9.2 || decide multBad)

/-- Step 4 of `pci9118_ai_cmdtest`: fix up the timer arguments against the
cascaded-divisor realization, and enforce the scan period to cover a whole
burst for the TRIG_TIMER/TRIG_NOW combination. -/
def cmdtest_step4 (cfg : Cfg) (cmd : AiCmd) : AiCmd × Bool :=
  let r1 := if cmd.scan_begin_src = TRIG_TIMER then
      cfc_check_trigger_arg_is cmd.scan_begin_arg
        (i8253_cascade_ns_to_timer I8254_OSC_BASE_4MHZ cmd.scan_begin_arg cmd.flags)
    else (cmd.scan_begin_arg, false)
  if cmd.convert_src &&& (TRIG_TIMER ||| TRIG_NOW) ≠ 0 then
    let r2 := cfc_check_trigger_arg_is cmd.convert_arg
      (i8253_cascade_ns_to_timer I8254_OSC_BASE_4MHZ cmd.convert_arg cmd.flags)
    if cmd.scan_begin_src = TRIG_TIMER ∧ cmd.convert_src = TRIG_NOW then
      let arg := if r2.1 = 0 then cfg.ai_ns_min * (cmd.scan_end_arg + 2)
                 else r2.1 * cmd.chanlist_len
      let r3 := cfc_check_trigger_arg_min r1.1 arg
      ({ cmd with scan_begin_arg := r3.1, convert_arg := r2.1 },
       r1.2 || r2.2 || r3.2)
    else ({ cmd with scan_begin_arg := r1.1, convert_arg := r2.1 }, r1.2 || r2.2)
  else ({ cmd with scan_begin_arg := r1.1 }, r1.2)

/-- Result of `pci9118_ai_cmdtest`: the step number that failed (0 when
the command is accepted) together with the corrected command. -/
structure CmdtestResult where
  step : Nat
  cmd : AiCmd
  deriving DecidableEq, Repr

/-- `pci9118_ai_cmdtest` from the source: the five validation phases in
their fixed precedence order; a NULL channel list (modelled as the empty
list) skips phase 5. -/
def pci9118_ai_cmdtest (cfg : Cfg) (cmd : AiCmd) : CmdtestResult :=
  let s1 := cmdtest_step1 cfg cmd
  if s1.2 then ⟨1, s1.1⟩
  else if cmdtest_step2 s1.1 then ⟨2, s1.1⟩
  else
    let s3 := cmdtest_step3 cfg s1.1
    if s3.2 then ⟨3, s3.1⟩
    else
      let s4 := cmdtest_step4 cfg s3.1
      if s4.2 then ⟨4, s4.1⟩
      else
        match s4.1.chanlist with
        | [] => ⟨0, s4.1⟩
        | l =>
          if !check_channel_list cfg.usemux cfg.n_aichand cfg.len_chanlist l 0 0
          then ⟨5, s4.1⟩ else ⟨0, s4.1⟩

/-- The acquisition-mode selection of `pci9118_ai_cmd` (the three `if`
blocks over scan-begin and convert sources): `none` when no block fires
and `devpriv->ai_do` keeps its stale value. -/
def ai_mode_select (scan_begin_src convert_src : Nat) : Option Nat :=
  if (scan_begin_src = TRIG_FOLLOW ∨ scan_begin_src = TRIG_EXT ∨
      scan_begin_src = TRIG_INT) ∧ convert_src = TRIG_TIMER then
    some (if scan_begin_src = TRIG_EXT then 4 else 1)
  else if scan_begin_src = TRIG_TIMER ∧
          (convert_src = TRIG_TIMER ∨ convert_src = TRIG_NOW) then some 2
  else if scan_begin_src = TRIG_FOLLOW ∧ convert_src = TRIG_EXT then some 3
  else none

/-- Run state produced by `pci9118_ai_cmd` up to the hand-off to
`pci9118_ai_docmd_dma`/`_sampl`: external start/stop arbitration, padding,
realized scan length, acquisition mode, pacer divisors, the (possibly
clamped/realized) timing arguments and the zeroed run counters. -/
structure RunSetup where
  ai12_startstop : Nat
  ai_neverending : Bool
  usedma : Bool
  ai_add_front : Nat
  ai_add_back : Nat
  ai_n_realscanlen : Nat
  ai_do : Nat
  ai_act_scan : Nat
  ai_act_dmapos : Nat
  cur_chan : Nat
  scan_begin_arg : Nat
  convert_arg : Nat
  ai_divisor1 : Nat
  ai_divisor2 : Nat
  inttrig_set : Bool
  deriving DecidableEq, Repr

/-- The DMA-vs-interrupt decision and padding computation of
`pci9118_ai_cmd` (its "use additional sample ..." and "we need software
S&H signal?" blocks): returns (`usedma`, `ai_add_front`, `ai_add_back`,
possibly clamped `convert_arg`). -/
def ai_cmd_dma_and_padding (cfg : Cfg) (cmd : AiCmd) : Bool × Nat × Nat × Nat :=
  let dmaDecision :=
    if cfg.master then
      let a :=
        if cmd.flags &&& TRIG_WAKE_EOS ≠ 0 ∧ cmd.scan_end_arg = 1 then
          (cmd.convert_src != TRIG_TIMER, if cmd.convert_src = TRIG_NOW then 1 else 0)
        else (true, 0)
      if cmd.flags &&& TRIG_WAKE_EOS ≠ 0 ∧ cmd.scan_end_arg % 2 = 1 ∧
         cmd.scan_end_arg > 1 then
        if cmd.scan_begin_src = TRIG_FOLLOW then (false, a.2) else (a.1, 1)
      else a
    else (false, 0)
  let usedma := dmaDecision.1
  let back0 := dmaDecision.2
  let ssh := cmd.convert_src = TRIG_NOW ∧ cfg.softsshdelay ≠ 0
  let front0 := if ssh then 2 else 0
  let moveBack := ssh ∧ usedma ∧ back0 = 1
  let front1 := if moveBack then 3 else front0
  let back1 := if moveBack then 0 else back0
  let cva := if ssh ∧ cmd.convert_arg < cfg.ai_ns_min then cfg.ai_ns_min
             else cmd.convert_arg
  let addchans := if cfg.softsshdelay % cva ≠ 0 then cfg.softsshdelay / cva + 1
                  else cfg.softsshdelay / cva
  let still := ssh ∧ addchans > front1 - 1
  let front2 := if still then addchans + 1 else front1
  let front3 := if still ∧ usedma ∧ (front2 + cmd.chanlist_len + back1) % 2 = 1
                then front2 + 1 else front2
  (usedma, front3, back1, cva)

/-- `pci9118_ai_cmd` from the source, up to (and excluding) the register
programming of `pci9118_ai_docmd_dma`/`_sampl`: computes the start/stop
arbitration, the DMA decision with front/back padding, the realized scan
length, re-validates and (conceptually) programs the channel list, selects
the acquisition mode and computes the divisors, and zeroes the run
counters.  `ai_do0`, the divisor inputs and `ai_neverending0` are the
stale `devpriv` values the function may leave untouched.  Errors:
`-22` (-EINVAL) for a bad channel list, `-5` (-EIO) for a dual-timed
command without bus mastering. -/
def pci9118_ai_cmd_setup (cfg : Cfg) (ai_do0 ai_divisor1_0 ai_divisor2_0 : Nat)
    (ai_neverending0 : Bool) (cmd : AiCmd) : Except Int RunSetup :=
  let ss1 := if cmd.start_src = TRIG_EXT then 1 else 0
  let nev1 := if cmd.stop_src = TRIG_EXT then true else ai_neverending0
  let ss2 := if cmd.stop_src = TRIG_EXT then ss1 ||| 2 else ss1
  let ss3 := if cmd.start_src = TRIG_INT then ss2 ||| 4 else ss2
  let itr := cmd.start_src = TRIG_INT
  let nev2 := if cmd.stop_src = TRIG_NONE then true else nev1
  let nev3 := if cmd.stop_src = TRIG_COUNT then false else nev2
  let pad := ai_cmd_dma_and_padding cfg cmd
  let usedma := pad.1
  let front3 := pad.2.1
  let back1 := pad.2.2.1
  let cva := pad.2.2.2
  let realscanlen := (front3 + cmd.chanlist_len + back1) *
                     (cmd.scan_end_arg / cmd.chanlist_len)
  if ¬ check_channel_list cfg.usemux cfg.n_aichand cfg.len_chanlist cmd.chanlist
        front3 back1 then Except.error (-22)
  else
    let m1 := (cmd.scan_begin_src = TRIG_FOLLOW ∨ cmd.scan_begin_src = TRIG_EXT ∨
               cmd.scan_begin_src = TRIG_INT) ∧ cmd.convert_src = TRIG_TIMER
    let do1 := if m1 then (if cmd.scan_begin_src = TRIG_EXT then 4 else 1) else ai_do0
    let cr1 := if m1 then
        pci9118_calc_divisors do1 cfg.ai_ns_min cfg.ai_pacer_min cmd.convert_src
          cmd.scan_begin_arg cva cmd.flags realscanlen ai_divisor1_0 ai_divisor2_0
          front3
      else ⟨cmd.scan_begin_arg, cva, ai_divisor1_0, ai_divisor2_0⟩
    let m2 := cmd.scan_begin_src = TRIG_TIMER ∧
              (cmd.convert_src = TRIG_TIMER ∨ cmd.convert_src = TRIG_NOW)
    if m2 ∧ ¬ usedma then Except.error (-5)
    else
      let do2 := if m2 then 2 else do1
      let cr2 := if m2 then
          pci9118_calc_divisors 2 cfg.ai_ns_min cfg.ai_pacer_min cmd.convert_src
            cr1.tim1 cr1.tim2 cmd.flags realscanlen cr1.div1 cr1.div2 front3
        else cr1
      let do3 := if cmd.scan_begin_src = TRIG_FOLLOW ∧ cmd.convert_src = TRIG_EXT
                 then 3 else do2
      Except.ok
        { ai12_startstop := ss3
          ai_neverending := nev3
          usedma := usedma
          ai_add_front := front3
          ai_add_back := back1
          ai_n_realscanlen := realscanlen
          ai_do := do3
          ai_act_scan := 0
          ai_act_dmapos := 0
          cur_chan := 0
          scan_begin_arg := cr2.tim1
          convert_arg := cr2.tim2
          ai_divisor1 := cr2.div1
          ai_divisor2 := cr2.div2
          inttrig_set := itr }

/-! ### Properties of the DMA defragmentation -/

/-- One step of the defragmentation loop, with the keep test stated as a
proposition. -/
lemma defragment_cons (f n b pos : Nat) (x : Nat) (xs : List Nat) :
    defragment_dma_buffer f n b pos (x :: xs) =
      (if f ≤ pos ∧ pos < f + n then
        x :: (defragment_dma_buffer f n b ((pos + 1) % (f + n + b)) xs).1
       else (defragment_dma_buffer f n b ((pos + 1) % (f + n + b)) xs).1,
       (defragment_dma_buffer f n b ((pos + 1) % (f + n + b)) xs).2) := by
  simp [defragment_dma_buffer]

lemma defragment_append (f n b : Nat) (pos : Nat) (xs ys : List Nat) :
    defragment_dma_buffer f n b pos (xs ++ ys) =
      ((defragment_dma_buffer f n b pos xs).1 ++
        (defragment_dma_buffer f n b
          (defragment_dma_buffer f n b pos xs).2 ys).1,
       (defragment_dma_buffer f n b
          (defragment_dma_buffer f n b pos xs).2 ys).2) := by
  induction xs generalizing pos with
  | nil => simp [defragment_dma_buffer]
  | cons x xs ih =>
    rw [List.cons_append, defragment_cons, defragment_cons, ih]
    split <;> simp

lemma defragment_front (f n b : Nat) (hnb : 0 < n + b) :
    ∀ (u : List Nat) (pos : Nat), pos + u.length ≤ f →
      defragment_dma_buffer f n b pos u = ([], pos + u.length) := by
  intro u
  induction u with
  | nil => intro pos _; simp [defragment_dma_buffer]
  | cons x rest ih =>
    intro pos h
    simp only [List.length_cons] at h
    have hk : ¬ (f ≤ pos ∧ pos < f + n) := by omega
    have hmod : (pos + 1) % (f + n + b) = pos + 1 :=
      Nat.mod_eq_of_lt (by omega)
    have hrec : defragment_dma_buffer f n b (pos + 1) rest =
        ([], pos + (x :: rest).length) := by
      rw [ih (pos + 1) (by omega)]
      have harith : pos + 1 + rest.length = pos + (x :: rest).length := by
        simp only [List.length_cons]; omega
      rw [harith]
    rw [defragment_cons, hmod, hrec, if_neg hk]

lemma defragment_keep (f n b : Nat) :
    ∀ (r : List Nat) (pos : Nat), f ≤ pos → pos + r.length ≤ f + n →
      0 < r.length →
      defragment_dma_buffer f n b pos r =
        (r, (pos + r.length) % (f + n + b)) := by
  intro r
  induction r with
  | nil => intro pos _ _ h; simp at h
  | cons x rest ih =>
    intro pos h1 h2 _
    simp only [List.length_cons] at h2
    have hk : f ≤ pos ∧ pos < f + n := ⟨h1, by omega⟩
    cases rest with
    | nil => rw [defragment_cons, if_pos hk]; simp [defragment_dma_buffer]
    | cons y t =>
      have hmod : (pos + 1) % (f + n + b) = pos + 1 := by
        apply Nat.mod_eq_of_lt
        simp only [List.length_cons] at h2
        omega
      have hrec : defragment_dma_buffer f n b (pos + 1) (y :: t) =
          (y :: t, (pos + (x :: y :: t).length) % (f + n + b)) := by
        rw [ih (pos + 1) (by omega)
          (by simp only [List.length_cons] at h2 ⊢; omega) (by simp)]
        have harith : pos + 1 + (y :: t).length =
            pos + (x :: y :: t).length := by
          simp only [List.length_cons]; omega
        rw [harith]
      rw [defragment_cons, hmod, hrec, if_pos hk]

lemma defragment_back (f n b : Nat) :
    ∀ (w : List Nat) (pos : Nat), f + n ≤ pos → pos < f + n + b →
      pos + w.length ≤ f + n + b →
      defragment_dma_buffer f n b pos w =
        ([], (pos + w.length) % (f + n + b)) := by
  intro w
  induction w with
  | nil =>
    intro pos _ h2 _
    simp [defragment_dma_buffer, Nat.mod_eq_of_lt h2]
  | cons x rest ih =>
    intro pos h1 h2 h3
    simp only [List.length_cons] at h3
    have hk : ¬ (f ≤ pos ∧ pos < f + n) := by omega
    cases rest with
    | nil => rw [defragment_cons, if_neg hk]; simp [defragment_dma_buffer]
    | cons y t =>
      have hmod : (pos + 1) % (f + n + b) = pos + 1 := by
        apply Nat.mod_eq_of_lt
        simp only [List.length_cons] at h3
        omega
      have hrec : defragment_dma_buffer f n b (pos + 1) (y :: t) =
          ([], (pos + (x :: y :: t).length) % (f + n + b)) := by
        rw [ih (pos + 1) (by omega)
          (by simp only [List.length_cons] at h3; omega)
          (by simp only [List.length_cons] at h3 ⊢; omega)]
        have harith : pos + 1 + (y :: t).length =
            pos + (x :: y :: t).length := by
          simp only [List.length_cons]; omega
        rw [harith]
      rw [defragment_cons, hmod, hrec, if_neg hk]

/-- One padded scan (front padding, `n ≥ 1` real samples, back padding)
processed from cursor 0 yields exactly the real samples and returns the
cursor to 0. -/
lemma defragment_one_scan (f n b : Nat) (hn : 0 < n)
    (u r w : List Nat) (hu : u.length = f) (hr : r.length = n)
    (hw : w.length = b) :
    defragment_dma_buffer f n b 0 (u ++ (r ++ w)) = (r, 0) := by
  have h1 : defragment_dma_buffer f n b 0 u = ([], f) := by
    rw [defragment_front f n b (by omega) u 0 (by omega), Nat.zero_add, hu]
  have h2 : defragment_dma_buffer f n b f r =
      (r, (f + n) % (f + n + b)) := by
    rw [defragment_keep f n b r f le_rfl (by omega) (by omega), hr]
  have h3 : defragment_dma_buffer f n b ((f + n) % (f + n + b)) w
      = ([], 0) := by
    rcases Nat.eq_zero_or_pos b with hb | hb
    · have hwnil : w = [] := List.length_eq_zero.mp (by omega)
      have hz : (f + n) % (f + n + b) = 0 := by
        rw [hb, Nat.add_zero, Nat.mod_self]
      subst hwnil
      simp [defragment_dma_buffer, hz]
    · have hp : (f + n) % (f + n + b) = f + n := Nat.mod_eq_of_lt (by omega)
      rw [hp, defragment_back f n b w (f + n) le_rfl (by omega) (by omega),
        hw, Nat.mod_self]
  rw [defragment_append, h1, defragment_append, h2, h3]
  simp

/-- A stream of `k` padded scans processed from cursor 0 compacts to the
concatenation of the real channel blocks and ends with the cursor at 0. -/
lemma defragment_scans (f n b : Nat) (hn : 0 < n)
    (scans : List (List Nat × List Nat × List Nat))
    (hlen : ∀ t ∈ scans, (t.1.length = f ∧ t.2.1.length = n ∧
      t.2.2.length = b)) :
    defragment_dma_buffer f n b 0
        (scans.flatMap (fun t => t.1 ++ (t.2.1 ++ t.2.2))) =
      (scans.flatMap (fun t => t.2.1), 0) := by
  induction scans with
  | nil => simp [defragment_dma_buffer]
  | cons s rest ih =>
    have hs := hlen s (List.mem_cons_self s rest)
    simp only [List.flatMap_cons]
    rw [defragment_append,
      defragment_one_scan f n b hn s.1 s.2.1 s.2.2 hs.1 hs.2.1 hs.2.2,
      ih (fun t ht => hlen t (List.mem_cons_of_mem s ht))]

lemma flatMap_mid_length (n : Nat) :
    ∀ (scans : List (List Nat × List Nat × List Nat)),
      (∀ t ∈ scans, t.2.1.length = n) →
      (scans.flatMap (fun t => t.2.1)).length = scans.length * n := by
  intro scans h
  induction scans with
  | nil => simp
  | cons s rest ih =>
    simp only [List.flatMap_cons, List.length_append, List.length_cons]
    rw [h s (List.mem_cons_self s rest),
      ih (fun t ht => h t (List.mem_cons_of_mem s ht))]
    ring

/-- C1: `defragment_dma_buffer` on a buffer holding `k` padded scans
(front + `n` real + back each) compacts to exactly the `k * n` real
samples in their original relative order, and the compaction is
position-independent: splitting the raw stream into two consecutive calls,
carrying the cursor between them, produces the same concatenated output
and final cursor as one call over the whole stream. -/
theorem C1_defragment_compaction :
    (∀ (f n b : Nat) (scans : List (List Nat × List Nat × List Nat)),
      0 < n →
      (∀ t ∈ scans, t.1.length = f ∧ t.2.1.length = n ∧ t.2.2.length = b) →
      defragment_dma_buffer f n b 0
          (scans.flatMap (fun t => t.1 ++ (t.2.1 ++ t.2.2))) =
        (scans.flatMap (fun t => t.2.1), 0) ∧
      (defragment_dma_buffer f n b 0
          (scans.flatMap (fun t => t.1 ++ (t.2.1 ++ t.2.2)))).1.length =
        scans.length * n) ∧
    (∀ (f n b pos : Nat) (xs ys : List Nat),
      defragment_dma_buffer f n b pos (xs ++ ys) =
        ((defragment_dma_buffer f n b pos xs).1 ++
          (defragment_dma_buffer f n b
            (defragment_dma_buffer f n b pos xs).2 ys).1,
         (defragment_dma_buffer f n b
            (defragment_dma_buffer f n b pos xs).2 ys).2)) := by
  constructor
  · intro f n b scans hn hlen
    have h := defragment_scans f n b hn scans hlen
    refine ⟨h, ?_⟩
    rw [h]
    exact flatMap_mid_length n scans (fun t ht => (hlen t ht).2.1)
  · exact fun f n b pos xs ys => defragment_append f n b pos xs ys

theorem C1_defragment_compaction_witness :
    defragment_dma_buffer 1 2 1 0
        ([([9], [1, 2], [7]), ([8], [3, 4], [6])].flatMap
          (fun t => t.1 ++ (t.2.1 ++ t.2.2))) = ([1, 2, 3, 4], 0) ∧
    defragment_dma_buffer 1 2 1 0 ([9, 1, 2] ++ [7, 8, 3, 4, 6]) =
      ((defragment_dma_buffer 1 2 1 0 [9, 1, 2]).1 ++
        (defragment_dma_buffer 1 2 1
          (defragment_dma_buffer 1 2 1 0 [9, 1, 2]).2 [7, 8, 3, 4, 6]).1,
       (defragment_dma_buffer 1 2 1
          (defragment_dma_buffer 1 2 1 0 [9, 1, 2]).2 [7, 8, 3, 4, 6]).2) :=
  ⟨(C1_defragment_compaction.1 1 2 1 [([9], [1, 2], [7]), ([8], [3, 4], [6])]
      (by decide) (by decide)).1,
   C1_defragment_compaction.2 1 2 1 0 [9, 1, 2] [7, 8, 3, 4, 6]⟩

/-! ### The padding-cursor invariant (C8) -/

lemma defragment_pos_lt (f n b : Nat) (h : 0 < f + n + b) :
    ∀ (xs : List Nat) (pos : Nat), pos < f + n + b →
      (defragment_dma_buffer f n b pos xs).2 < f + n + b := by
  intro xs
  induction xs with
  | nil => intro pos hp; simpa [defragment_dma_buffer] using hp
  | cons x rest ih =>
    intro pos _
    rw [defragment_cons]
    exact ih _ (Nat.mod_lt _ h)

/-- C8: the padding-removal cursor is zeroed when a run is armed
(`pci9118_ai_cmd`) and when it is cancelled, and after any nonempty block
of samples processed by `defragment_dma_buffer` it lies in
`[0, front + requested + back)`; a single processed sample advances it by
one modulo that sum. -/
theorem C8_dmapos_invariant :
    (∀ (f n b pos x : Nat) (xs : List Nat), 0 < f + n + b →
      (defragment_dma_buffer f n b pos (x :: xs)).2 < f + n + b) ∧
    (∀ (f n b pos x : Nat),
      (defragment_dma_buffer f n b pos [x]).2 = (pos + 1) % (f + n + b)) ∧
    (∀ st : DevState, (pci9118_ai_cancel st).1.ai_act_dmapos = 0) ∧
    (∀ (cfg : Cfg) (d0 dv1 dv2 : Nat) (nev : Bool) (cmd : AiCmd)
       (rs : RunSetup),
      pci9118_ai_cmd_setup cfg d0 dv1 dv2 nev cmd = Except.ok rs →
      rs.ai_act_dmapos = 0) := by
  refine ⟨?_, ?_, ?_, ?_⟩
  · intro f n b pos x xs h
    rw [defragment_cons]
    exact defragment_pos_lt f n b h xs _ (Nat.mod_lt _ h)
  · intro f n b pos x
    rw [defragment_cons]
    simp [defragment_dma_buffer]
  · intro st; rfl
  · intro cfg d0 dv1 dv2 nev cmd rs h
    simp only [pci9118_ai_cmd_setup] at h
    split at h
    · exact absurd h (by simp)
    · split at h
      · exact absurd h (by simp)
      · simp only [Except.ok.injEq] at h
        rw [← h]

/-- C8 witness: a cursor starting out of range is reduced below the raw
scan length by a single processed sample. -/
theorem C8_dmapos_invariant_witness :
    (defragment_dma_buffer 1 2 1 7 [5, 5]).2 < 1 + 2 + 1 :=
  C8_dmapos_invariant.1 1 2 1 7 5 [5] (by decide)

/-! ### Channel-list validation (C2, C9) -/

lemma check_channel_list_loop_cons (usemux : Bool) (nd : Nat)
    (diff bip : Bool) (c : Nat) (rest : List Nat) :
    check_channel_list_loop usemux nd diff bip (c :: rest) = true ↔
      (((CR_AREF c = AREF_DIFF) ↔ diff = true) ∧
       ((CR_RANGE c < PCI9118_BIPOLAR_RANGES) ↔ bip = true) ∧
       (usemux = false → diff = true → CR_CHAN c < nd) ∧
       check_channel_list_loop usemux nd diff bip rest = true) := by
  simp only [check_channel_list_loop]
  split_ifs with h1 h2 h3 <;>
    simp_all [bne_iff_ne, beq_iff_eq, decide_eq_true_eq] <;>
    cases usemux <;> cases diff <;> cases bip <;> simp_all

lemma check_channel_list_loop_iff (usemux : Bool) (nd : Nat)
    (diff bip : Bool) (l : List Nat) :
    check_channel_list_loop usemux nd diff bip l = true ↔
      ∀ c ∈ l, (((CR_AREF c = AREF_DIFF) ↔ diff = true) ∧
        ((CR_RANGE c < PCI9118_BIPOLAR_RANGES) ↔ bip = true) ∧
        (usemux = false → diff = true → CR_CHAN c < nd)) := by
  induction l with
  | nil => simp [check_channel_list_loop]
  | cons c rest ih =>
    rw [check_channel_list_loop_cons, ih]
    constructor
    · rintro ⟨ha, hb, hc, hrest⟩ d hd
      rcases List.mem_cons.mp hd with rfl | hd'
      · exact ⟨ha, hb, hc⟩
      · exact hrest d hd'
    · intro hall
      have hc := hall c (List.mem_cons_self c rest)
      exact ⟨hc.1, hc.2.1, hc.2.2, fun d hd => hall d (List.mem_cons_of_mem c hd)⟩

/-- Acceptance characterization of `check_channel_list`: the list is
accepted iff it is nonempty, fits the queue with the padding, and every
entry after the first matches the first entry's reference mode and
polarity class and (without an external multiplexer, for a differential
first entry) addresses a channel below the differential channel count.
The first entry's own channel number is never examined. -/
lemma check_channel_list_iff (usemux : Bool) (nd cap : Nat) (c0 : Nat)
    (rest : List Nat) (front back : Nat) :
    check_channel_list usemux nd cap (c0 :: rest) front back = true ↔
      (front + (c0 :: rest).length + back ≤ cap ∧
       ∀ c ∈ rest,
         (((CR_AREF c = AREF_DIFF) ↔ (CR_AREF c0 = AREF_DIFF)) ∧
          ((CR_RANGE c < PCI9118_BIPOLAR_RANGES) ↔
            (CR_RANGE c0 < PCI9118_BIPOLAR_RANGES)) ∧
          (usemux = false → CR_AREF c0 = AREF_DIFF → CR_CHAN c < nd))) := by
  simp only [check_channel_list]
  split_ifs with h1
  · simp only [false_iff, not_and]
    intro hle
    omega
  · rw [check_channel_list_loop_iff]
    constructor
    · intro hall
      refine ⟨by omega, fun c hc => ?_⟩
      have h := hall c hc
      simp only [beq_iff_eq, decide_eq_true_eq] at h
      exact ⟨h.1, h.2.1, fun hm hd => h.2.2 hm (by simp [hd])⟩
    · rintro ⟨_, hall⟩ c hc
      have h := hall c hc
      simp only [beq_iff_eq, decide_eq_true_eq]
      exact ⟨h.1, h.2.1, fun hm hd => h.2.2 hm (by simpa using hd)⟩

/-- C2 counterexample: with no external multiplexer, 8 differential
channels and a capacity of 255, the single-entry list whose one entry is a
differential reference on channel 8 (at the differential channel count,
hence out of range by the claim) is nevertheless accepted. -/
theorem C2_counterexample :
    check_channel_list false 8 255 [0x02000008] 0 0 = true ∧
    CR_AREF 0x02000008 = AREF_DIFF ∧ 8 ≤ CR_CHAN 0x02000008 := by decide

/-- C2 amended: `check_channel_list` fails exactly when the list is empty,
when padding plus entries exceed the capacity, when an entry after the
first mixes reference modes or polarity classes with the first entry, or
when (with no external multiplexer and a differential first entry) an
entry after the first addresses a channel at or beyond the differential
channel count — the first entry's own channel number is exempt from the
differential range check. -/
theorem C2_check_channel_list_amended (usemux : Bool) (nd cap : Nat)
    (chanlist : List Nat) (front back : Nat) :
    check_channel_list usemux nd cap chanlist front back = true ↔
      ∃ c0 rest, chanlist = c0 :: rest ∧
        front + chanlist.length + back ≤ cap ∧
        ∀ c ∈ rest,
          (((CR_AREF c = AREF_DIFF) ↔ (CR_AREF c0 = AREF_DIFF)) ∧
           ((CR_RANGE c < PCI9118_BIPOLAR_RANGES) ↔
             (CR_RANGE c0 < PCI9118_BIPOLAR_RANGES)) ∧
           (usemux = false → CR_AREF c0 = AREF_DIFF → CR_CHAN c < nd)) := by
  cases chanlist with
  | nil =>
    simp [check_channel_list]
  | cons c0 rest =>
    rw [check_channel_list_iff]
    constructor
    · rintro ⟨hle, hall⟩
      exact ⟨c0, rest, rfl, hle, hall⟩
    · rintro ⟨c0', rest', heq, hle, hall⟩
      cases heq
      exact ⟨hle, hall⟩

/-- C9: the differential-range restriction is enforced only from the
second entry on: a list whose first entry is a differential reference on
any channel index (even at or beyond the differential channel count, with
no multiplexer) is accepted as long as it fits the queue and every later
entry is differential, of the same polarity class, and in range; in
particular every single-entry differential list that fits is accepted. -/
theorem C9_first_entry_exempt :
    (∀ (usemux : Bool) (nd cap front back c0 : Nat) (rest : List Nat),
      CR_AREF c0 = AREF_DIFF →
      front + (c0 :: rest).length + back ≤ cap →
      (∀ c ∈ rest, CR_AREF c = AREF_DIFF ∧
        ((CR_RANGE c < PCI9118_BIPOLAR_RANGES) ↔
          (CR_RANGE c0 < PCI9118_BIPOLAR_RANGES)) ∧
        CR_CHAN c < nd) →
      check_channel_list usemux nd cap (c0 :: rest) front back = true) ∧
    (∀ (usemux : Bool) (nd cap front back c0 : Nat),
      CR_AREF c0 = AREF_DIFF →
      front + 1 + back ≤ cap →
      check_channel_list usemux nd cap [c0] front back = true) := by
  constructor
  · intro usemux nd cap front back c0 rest hdiff hle hall
    rw [check_channel_list_iff]
    refine ⟨hle, fun c hc => ?_⟩
    have h := hall c hc
    exact ⟨by simp [h.1, hdiff], h.2.1, fun _ _ => h.2.2⟩
  · intro usemux nd cap front back c0 hdiff hle
    rw [check_channel_list_iff]
    exact ⟨by simpa using hle, by simp⟩

/-- C9 witness: a single-entry differential list on channel 8 (the
differential channel count) is accepted, via the theorem. -/
theorem C9_first_entry_exempt_witness :
    check_channel_list false 8 255 [0x02000008] 0 0 = true :=
  C9_first_entry_exempt.2 false 8 255 0 0 0x02000008 (by decide) (by decide)

/-! ### Error-status decoding (C6) -/

lemma land_absorb_right (x c b : Nat) (h : c &&& b = 0) :
    (x &&& c) &&& b = 0 := by
  rw [Nat.land_assoc, h]; simp

lemma land_absorb_stable (x c b : Nat) (h : x &&& b = 0) :
    (x &&& c) &&& b = 0 := by
  rw [Nat.land_assoc, Nat.land_comm c b, ← Nat.land_assoc, h]; simp

lemma decode_clears_100 (me mh m : Nat) (h : m &&& 0x100 ≠ 0) :
    (pci9118_decode_error_status me mh m).1 &&& 0x100 = 0 := by
  simp only [pci9118_decode_error_status, U32MASK]
  rw [if_pos h]
  split_ifs <;>
    repeat first
      | exact land_absorb_right _ _ _ (by decide)
      | apply land_absorb_stable

lemma decode_clears_008 (me mh m : Nat) (h : m &&& 0x008 ≠ 0) :
    (pci9118_decode_error_status me mh m).1 &&& 0x008 = 0 := by
  simp only [pci9118_decode_error_status, U32MASK]
  rw [if_pos h]
  split_ifs <;>
    repeat first
      | exact land_absorb_right _ _ _ (by decide)
      | apply land_absorb_stable

lemma decode_clears_004 (me mh m : Nat) (h : m &&& 0x004 ≠ 0) :
    (pci9118_decode_error_status me mh m).1 &&& 0x004 = 0 := by
  simp only [pci9118_decode_error_status, U32MASK]
  rw [if_pos h]
  split_ifs <;>
    repeat first
      | exact land_absorb_right _ _ _ (by decide)
      | apply land_absorb_stable

lemma decode_clears_002 (me mh m : Nat) (h : m &&& 0x002 ≠ 0) :
    (pci9118_decode_error_status me mh m).1 &&& 0x002 = 0 := by
  simp only [pci9118_decode_error_status, U32MASK]
  rw [if_pos h]
  split_ifs <;>
    repeat first
      | exact land_absorb_right _ _ _ (by decide)
      | apply land_absorb_stable

/-- C6: each decodable error bit present in the status is cleared from the
per-run warned mask (so a later status made of that bit alone no longer
passes the caller's `int_adstat & ai_maskerr` gate and is reported at most
once per run); the function returns 1, raising the error/end events,
exactly when the status intersects the configured hard-error mask; and a
status holding only the overspeed bit never returns 1 under the attach
default `0x10a & ~hw_err_mask`. -/
theorem C6_decode_error_status (me mh m : Nat) :
    ((m &&& 0x100 ≠ 0 → (pci9118_decode_error_status me mh m).1 &&& 0x100 = 0) ∧
     (m &&& 0x008 ≠ 0 → (pci9118_decode_error_status me mh m).1 &&& 0x008 = 0) ∧
     (m &&& 0x004 ≠ 0 → (pci9118_decode_error_status me mh m).1 &&& 0x004 = 0) ∧
     (m &&& 0x002 ≠ 0 → (pci9118_decode_error_status me mh m).1 &&& 0x002 = 0)) ∧
    ((pci9118_decode_error_status me mh m).2 = 1 ↔ m &&& mh ≠ 0) ∧
    (∀ hw : Nat, (pci9118_decode_error_status me
        (DEFAULT_HARDERR_MASK &&& (U32MASK ^^^ hw)) 0x004).2 = 0) := by
  refine ⟨⟨decode_clears_100 me mh m, decode_clears_008 me mh m,
    decode_clears_004 me mh m, decode_clears_002 me mh m⟩, ?_, ?_⟩
  · simp only [pci9118_decode_error_status]
    split_ifs with h <;> simp [h]
  · intro hw
    have hz : (0x004 : Nat) &&& (DEFAULT_HARDERR_MASK &&& (U32MASK ^^^ hw))
        = 0 := by
      rw [← Nat.land_assoc,
        show (0x004 : Nat) &&& DEFAULT_HARDERR_MASK = 0 by decide]
      simp
    simp [pci9118_decode_error_status, hz]

/-- C6 witness: a status with FIFO-full, overspeed and overrun set against
the default warn mask 0x10e and hard mask 0x10a has those bits cleared
from the warn mask, returns 1, and overspeed alone returns 0. -/
theorem C6_decode_error_status_witness :
    (pci9118_decode_error_status 0x10e 0x10a 0x106).1 &&& 0x100 = 0 ∧
    ((pci9118_decode_error_status 0x10e 0x10a 0x106).2 = 1 ↔
      (0x106 : Nat) &&& 0x10a ≠ 0) ∧
    (pci9118_decode_error_status 0x10e
      (DEFAULT_HARDERR_MASK &&& (U32MASK ^^^ 0)) 0x004).2 = 0 :=
  ⟨(C6_decode_error_status 0x10e 0x10a 0x106).1.1 (by decide),
   (C6_decode_error_status 0x10e 0x10a 0x106).2.1,
   (C6_decode_error_status 0x10e 0x10a 0x106).2.2 0⟩

/-! ### Cancellation (C7) -/

lemma land_mask_idem (x c : Nat) : (x &&& c) &&& c = x &&& c := by
  rw [Nat.land_assoc]; simp

/-- C7 counterexample: cancellation does not reset the interrupt-control
shadow register.  From a state with the timer-interrupt source enabled
(IntControlReg = 0x08, as a mode-1 run configures) cancellation keeps
IntControlReg = 0x08, while from the quiescent all-zero state it yields
IntControlReg = 0, so the two final states differ — "calling it with no
run active leaves the same final quiescent state as calling it once after
an active run" fails, as does "shadow registers ... all reset". -/
theorem C7_counterexample :
    (pci9118_ai_cancel
      ⟨0x06, 0x08, 0xd1, 1, true, 3, 2, true, 1, 1, 0, 5, true⟩).1.IntControlReg
        = 0x08 ∧
    (pci9118_ai_cancel
      ⟨0, 0, 0, 0, false, 0, 0, false, 0, 0, 0, 0, false⟩).1.IntControlReg
        = 0 ∧
    (pci9118_ai_cancel
      ⟨0x06, 0x08, 0xd1, 1, true, 3, 2, true, 1, 1, 0, 5, true⟩).1 ≠
    (pci9118_ai_cancel
      ⟨0, 0, 0, 0, false, 0, 0, false, 0, 0, 0, 0, false⟩).1 := by decide

/-- C7 amended: `pci9118_ai_cancel` is total and idempotent and always
returns 0; it resets the mode, the DMA flag, the scan/position counters,
the channel cursor, the deferred-trigger callback, the never-ending flag,
the buffer index and the A/D control and function register shadows to
fixed quiescent values and drops the analog-input external-trigger
registration — but the interrupt-control shadow register is not reset:
only its external-digital-trigger bit is cleared, and only when no
external-trigger user remains, so the quiescent state still depends on the
prior interrupt-control value; the pending external start/stop word is
also left unchanged. -/
theorem C7_cancel_idempotent_amended (st : DevState) :
    (pci9118_ai_cancel st).2 = 0 ∧
    pci9118_ai_cancel (pci9118_ai_cancel st).1 = pci9118_ai_cancel st ∧
    (pci9118_ai_cancel st).1.ai_do = 0 ∧
    (pci9118_ai_cancel st).1.usedma = false ∧
    (pci9118_ai_cancel st).1.ai_act_scan = 0 ∧
    (pci9118_ai_cancel st).1.ai_act_dmapos = 0 ∧
    (pci9118_ai_cancel st).1.cur_chan = 0 ∧
    (pci9118_ai_cancel st).1.inttrig_set = false ∧
    (pci9118_ai_cancel st).1.ai_neverending = false ∧
    (pci9118_ai_cancel st).1.dma_actbuf = 0 ∧
    (pci9118_ai_cancel st).1.AdControlReg = 0 ∧
    (pci9118_ai_cancel st).1.AdFunctionReg = AdFunction_PDTrg_PETrg ∧
    (pci9118_ai_cancel st).1.exttrg_users = st.exttrg_users &&& 0xfe ∧
    (pci9118_ai_cancel st).1.IntControlReg =
      (if st.exttrg_users &&& 0xfe = 0 then st.IntControlReg &&& 0xfe
       else st.IntControlReg) ∧
    (pci9118_ai_cancel st).1.ai12_startstop = st.ai12_startstop := by
  simp only [pci9118_ai_cancel, pci9118_exttrg_del, EXTTRG_AI, Int_DTrg]
  norm_num
  split_ifs with h1 <;>
    simp_all [land_mask_idem]

/-! ### Properties of the realizable-product search -/

lemma searchUp_ge (c : Nat) : ∀ q : Nat, q ≤ searchUp q c := by
  induction c with
  | zero => intro q; simp [searchUp]
  | succ c ih =>
    intro q
    simp only [searchUp]
    split
    · exact le_rfl
    · exact le_trans (by omega) (ih (q + 1))

lemma searchUp_ok (c : Nat) : ∀ q : Nat, prodOK (q + c) = true →
    prodOK (searchUp q c) = true := by
  induction c with
  | zero => intro q h; simpa [searchUp] using h
  | succ c ih =>
    intro q h
    simp only [searchUp]
    by_cases hq : prodOK q = true
    · simp [hq]
    · simp only [hq, if_false, Bool.false_eq_true]
      exact ih (q + 1) (by rw [show q + 1 + c = q + (c + 1) by omega]; exact h)

lemma searchUp_min (c : Nat) : ∀ q v : Nat, q ≤ v → prodOK v = true →
    searchUp q c ≤ v := by
  induction c with
  | zero => intro q v hv _; simpa [searchUp] using hv
  | succ c ih =>
    intro q v hv hok
    simp only [searchUp]
    by_cases hq : prodOK q = true
    · simpa [hq] using hv
    · simp only [hq, if_false, Bool.false_eq_true]
      have hne : v ≠ q := fun he => hq (he ▸ hok)
      exact ih (q + 1) v (by omega) hok

lemma searchUp_of_ok (c q : Nat) (h : prodOK q = true) : searchUp q c = q := by
  cases c <;> simp [searchUp, h]

lemma searchDn_le (c : Nat) : ∀ q : Nat, searchDn q c ≤ q := by
  induction c with
  | zero => intro q; simp [searchDn]
  | succ c ih =>
    intro q
    simp only [searchDn]
    split
    · exact le_rfl
    · exact le_trans (ih (q - 1)) (by omega)

lemma searchDn_ok (c : Nat) : ∀ q : Nat, prodOK (q - c) = true →
    prodOK (searchDn q c) = true := by
  induction c with
  | zero => intro q h; simpa [searchDn] using h
  | succ c ih =>
    intro q h
    simp only [searchDn]
    by_cases hq : prodOK q = true
    · simp [hq]
    · simp only [hq, if_false, Bool.false_eq_true]
      exact ih (q - 1) (by rw [show q - 1 - c = q - (c + 1) by omega]; exact h)

lemma searchDn_max (c : Nat) : ∀ q v : Nat, v ≤ q → prodOK v = true →
    v ≤ searchDn q c := by
  induction c with
  | zero => intro q v hv _; simpa [searchDn] using hv
  | succ c ih =>
    intro q v hv hok
    simp only [searchDn]
    by_cases hq : prodOK q = true
    · simpa [hq] using hv
    · simp only [hq, if_false, Bool.false_eq_true]
      have hne : v ≠ q := fun he => hq (he ▸ hok)
      exact ih (q - 1) v (by omega) hok

lemma searchDn_of_ok (c q : Nat) (h : prodOK q = true) : searchDn q c = q := by
  cases c <;> simp [searchDn, h]

lemma prodOK_4 : prodOK 4 = true := by decide

lemma hasDivisorIn_of (p : Nat) : ∀ (c d i : Nat), i < c →
    divCheck p (d + i) = true → hasDivisorIn p d c = true := by
  intro c
  induction c with
  | zero => intro d i hi _; exact absurd hi (by omega)
  | succ c ih =>
    intro d i hi hd
    simp only [hasDivisorIn, Bool.or_eq_true]
    cases i with
    | zero => exact Or.inl (by simpa using hd)
    | succ j =>
      refine Or.inr (ih (d + 1) j (by omega) ?_)
      rw [show d + 1 + j = d + (j + 1) by omega]
      exact hd

lemma prodOK_T : prodOK PROD_MAX = true := by
  have h : divCheck PROD_MAX (2 + 65534) = true := by decide
  exact hasDivisorIn_of PROD_MAX 65535 2 65534 (by omega) h

lemma hasDivisorIn_sound (p : Nat) : ∀ (c d : Nat),
    hasDivisorIn p d c = true → ∃ i, i < c ∧ divCheck p (d + i) = true := by
  intro c
  induction c with
  | zero => intro d h; simp [hasDivisorIn] at h
  | succ c ih =>
    intro d h
    simp only [hasDivisorIn, Bool.or_eq_true] at h
    rcases h with h | h
    · exact ⟨0, by omega, by simpa using h⟩
    · obtain ⟨i, hi, hd⟩ := ih (d + 1) h
      exact ⟨i + 1, by omega, by rw [show d + (i + 1) = d + 1 + i by omega]; exact hd⟩

lemma prodOK_bounds (p : Nat) (h : prodOK p = true) :
    4 ≤ p ∧ p ≤ PROD_MAX := by
  obtain ⟨i, hi, hd⟩ := hasDivisorIn_sound p 65535 2 h
  simp only [divCheck, Bool.and_eq_true, decide_eq_true_eq] at hd
  obtain ⟨⟨hmod, h2⟩, h3⟩ := hd
  have hdvd : (2 + i) ∣ p := Nat.dvd_of_mod_eq_zero hmod
  have heq : (2 + i) * (p / (2 + i)) = p := Nat.mul_div_cancel' hdvd
  constructor
  · calc (4 : Nat) = 2 * 2 := by norm_num
      _ ≤ (2 + i) * (p / (2 + i)) := Nat.mul_le_mul (by omega) h2
      _ = p := heq
  · calc p = (2 + i) * (p / (2 + i)) := heq.symm
      _ ≤ 65536 * 65536 := Nat.mul_le_mul (by omega) h3
      _ = PROD_MAX := by norm_num [PROD_MAX]

lemma clampQ_ge4 (q : Nat) : 4 ≤ clampQ q :=
  le_min (le_max_right q 4) (by norm_num [PROD_MAX])

lemma clampQ_leT (q : Nat) : clampQ q ≤ PROD_MAX := min_le_right _ _

lemma clampQ_mono {q1 q2 : Nat} (h : q1 ≤ q2) : clampQ q1 ≤ clampQ q2 :=
  min_le_min (max_le_max h le_rfl) le_rfl

lemma clampQ_le_self {q : Nat} (h4 : 4 ≤ q) : clampQ q ≤ q := by
  unfold clampQ
  rw [max_eq_left h4]
  exact min_le_left _ _

lemma self_le_clampQ {q : Nat} (hT : q ≤ PROD_MAX) : q ≤ clampQ q :=
  le_min (le_max_left _ _) hT

lemma le_clampQ_of {v q : Nat} (hT : v ≤ PROD_MAX)
    (h : v ≤ q) : v ≤ clampQ q :=
  le_min (le_trans h (le_max_left q 4)) hT

lemma clampQ_of_le4 {q : Nat} (h : q ≤ 4) : clampQ q = 4 := by
  unfold clampQ
  rw [max_eq_right h, min_eq_left (by norm_num [PROD_MAX])]

lemma clampQ_of_geT {q : Nat} (h : PROD_MAX ≤ q) : clampQ q = PROD_MAX := by
  unfold clampQ
  rw [max_eq_left (le_trans (by norm_num [PROD_MAX]) h), min_eq_right h]

lemma clampQ_le_of_le {q v : Nat} (h4 : 4 ≤ v) (h : q ≤ v) : clampQ q ≤ v :=
  le_trans (min_le_left _ _) (max_le h h4)

lemma lubP_ok (q : Nat) : prodOK (lubP q) = true := by
  unfold lubP
  apply searchUp_ok
  rw [show clampQ q + (PROD_MAX - clampQ q) = PROD_MAX by
    have := clampQ_leT q; omega]
  exact prodOK_T

lemma lubP_ge (q : Nat) : clampQ q ≤ lubP q := searchUp_ge _ _

lemma lubP_min {q v : Nat} (hv : clampQ q ≤ v) (hok : prodOK v = true) :
    lubP q ≤ v := searchUp_min _ _ v hv hok

lemma lubP_mono {q1 q2 : Nat} (h : q1 ≤ q2) : lubP q1 ≤ lubP q2 :=
  lubP_min (le_trans (clampQ_mono h) (lubP_ge q2)) (lubP_ok q2)

lemma glbP_ok (q : Nat) : prodOK (glbP q) = true := by
  unfold glbP
  apply searchDn_ok
  rw [show clampQ q - (clampQ q - 4) = 4 by have := clampQ_ge4 q; omega]
  exact prodOK_4

lemma glbP_le (q : Nat) : glbP q ≤ clampQ q := searchDn_le _ _

lemma glbP_max {q v : Nat} (hv : v ≤ clampQ q) (hok : prodOK v = true) :
    v ≤ glbP q := searchDn_max _ _ v hv hok

lemma glbP_mono {q1 q2 : Nat} (h : q1 ≤ q2) : glbP q1 ≤ glbP q2 :=
  glbP_max (le_trans (glbP_le q1) (clampQ_mono h)) (glbP_ok q1)

/-! ### Properties of the spec-modelled cascade realization -/

lemma cascade_eq (osc ns rm : Nat) :
    i8253_cascade_ns_to_timer osc ns rm =
      if ((rm &&& TRIG_ROUND_MASK == TRIG_ROUND_NEAREST) &&
          decide (ns - osc * glbP (ns / osc) <
            osc * lubP ((ns + osc - 1) / osc) - ns)) = true
      then osc * glbP (ns / osc)
      else osc * lubP ((ns + osc - 1) / osc) := rfl

lemma cascade_lo_le_hi (osc ns : Nat) (hosc : 0 < osc) :
    osc * glbP (ns / osc) ≤ osc * lubP ((ns + osc - 1) / osc) := by
  apply Nat.mul_le_mul_left
  calc glbP (ns / osc) ≤ clampQ (ns / osc) := glbP_le _
    _ ≤ clampQ ((ns + osc - 1) / osc) :=
        clampQ_mono (Nat.div_le_div_right (by omega))
    _ ≤ lubP ((ns + osc - 1) / osc) := lubP_ge _

lemma ceil_le_iff {k n p : Nat} (hk : 0 < k) :
    (n + k - 1) / k ≤ p ↔ n ≤ k * p := by
  rw [Nat.div_le_iff_le_mul_add_pred hk]
  omega

/-- The realized period never drops below a realizable lower bound that
the request satisfies:  `osc * pm ≤ ns` with `pm` a realizable product
forces `osc * pm ≤ realized`. -/
lemma cascade_ge (osc ns rm pm : Nat) (hosc : 0 < osc)
    (hpm : prodOK pm = true) (h : osc * pm ≤ ns) :
    osc * pm ≤ i8253_cascade_ns_to_timer osc ns rm := by
  have hb := prodOK_bounds pm hpm
  have h1 : pm ≤ ns / osc :=
    (Nat.le_div_iff_mul_le hosc).mpr (by rw [Nat.mul_comm]; exact h)
  have h2 : pm ≤ glbP (ns / osc) :=
    glbP_max (le_clampQ_of hb.2 h1) hpm
  have hlo : osc * pm ≤ osc * glbP (ns / osc) := Nat.mul_le_mul_left _ h2
  rw [cascade_eq]
  split
  · exact hlo
  · exact le_trans hlo (cascade_lo_le_hi osc ns hosc)

/-- Monotonicity of the realized period in the requested period. -/
lemma cascade_mono (osc rm : Nat) (hosc : 0 < osc) {ns1 ns2 : Nat}
    (h : ns1 ≤ ns2) :
    i8253_cascade_ns_to_timer osc ns1 rm ≤
      i8253_cascade_ns_to_timer osc ns2 rm := by
  have hlo : osc * glbP (ns1 / osc) ≤ osc * glbP (ns2 / osc) :=
    Nat.mul_le_mul_left _ (glbP_mono (Nat.div_le_div_right h))
  have hhi : osc * lubP ((ns1 + osc - 1) / osc) ≤
      osc * lubP ((ns2 + osc - 1) / osc) :=
    Nat.mul_le_mul_left _ (lubP_mono (Nat.div_le_div_right (by omega)))
  have hlh1 := cascade_lo_le_hi osc ns1 hosc
  have hlh2 := cascade_lo_le_hi osc ns2 hosc
  rw [cascade_eq, cascade_eq]
  by_cases hc1 : ((rm &&& TRIG_ROUND_MASK == TRIG_ROUND_NEAREST) &&
      decide (ns1 - osc * glbP (ns1 / osc) <
        osc * lubP ((ns1 + osc - 1) / osc) - ns1)) = true
  · rw [if_pos hc1]
    split
    · exact hlo
    · exact le_trans hlo hlh2
  · rw [if_neg hc1]
    by_cases hc2 : ((rm &&& TRIG_ROUND_MASK == TRIG_ROUND_NEAREST) &&
        decide (ns2 - osc * glbP (ns2 / osc) <
          osc * lubP ((ns2 + osc - 1) / osc) - ns2)) = true
    · rw [if_pos hc2]
      -- the hard case: round-to-nearest chose up at ns1 and down at ns2
      simp only [Bool.and_eq_true, decide_eq_true_eq] at hc2
      have hrm : (rm &&& TRIG_ROUND_MASK == TRIG_ROUND_NEAREST) = true :=
        hc2.1
      have hd2 : ns2 - osc * glbP (ns2 / osc) <
          osc * lubP ((ns2 + osc - 1) / osc) - ns2 := hc2.2
      have hd1 : ¬ (ns1 - osc * glbP (ns1 / osc) <
          osc * lubP ((ns1 + osc - 1) / osc) - ns1) := by
        intro hlt
        exact hc1 (by simp [hrm, hlt])
      by_cases hA : ns1 < osc * 4
      · -- below the realizable band: the upper choice at ns1 is the floor
        have hceil : (ns1 + osc - 1) / osc ≤ 4 :=
          (ceil_le_iff hosc).mpr (by omega)
        have hcl : clampQ ((ns1 + osc - 1) / osc) = 4 := clampQ_of_le4 hceil
        have hlub : lubP ((ns1 + osc - 1) / osc) = 4 := by
          unfold lubP
          rw [hcl]
          exact searchUp_of_ok _ _ prodOK_4
        rw [hlub]
        exact Nat.mul_le_mul_left _ ((prodOK_bounds _ (glbP_ok _)).1)
      · by_cases hB : osc * PROD_MAX < ns2
        · -- above the realizable band: the lower choice at ns2 is the cap
          have hfl : PROD_MAX ≤ ns2 / osc :=
            (Nat.le_div_iff_mul_le hosc).mpr (by rw [Nat.mul_comm]; omega)
          have hcl : clampQ (ns2 / osc) = PROD_MAX := clampQ_of_geT hfl
          have hglb : glbP (ns2 / osc) = PROD_MAX := by
            unfold glbP
            rw [hcl]
            exact searchDn_of_ok _ _ prodOK_T
          rw [hglb]
          exact Nat.mul_le_mul_left _ ((prodOK_bounds _ (lubP_ok _)).2)
        · -- both requests inside the realizable band
          push_neg at hA hB
          have h4osc : osc * 4 ≤ ns1 := hA
          have hTosc : ns2 ≤ osc * PROD_MAX := hB
          have hfl1 : 4 ≤ ns1 / osc :=
            (Nat.le_div_iff_mul_le hosc).mpr (by rw [Nat.mul_comm]; omega)
          have hfl2 : 4 ≤ ns2 / osc :=
            (Nat.le_div_iff_mul_le hosc).mpr
              (by rw [Nat.mul_comm]; omega)
          have hce1 : (ns1 + osc - 1) / osc ≤ PROD_MAX :=
            (ceil_le_iff hosc).mpr (by omega)
          have hce2 : (ns2 + osc - 1) / osc ≤ PROD_MAX :=
            (ceil_le_iff hosc).mpr (by omega)
          -- the four glb/lub values straddle their requests
          have hlo1_le : osc * glbP (ns1 / osc) ≤ ns1 :=
            le_trans (Nat.mul_le_mul_left _
                (le_trans (glbP_le _) (clampQ_le_self hfl1)))
              (by rw [Nat.mul_comm]; exact Nat.div_mul_le_self ns1 osc)
          have hlo2_le : osc * glbP (ns2 / osc) ≤ ns2 :=
            le_trans (Nat.mul_le_mul_left _
                (le_trans (glbP_le _) (clampQ_le_self hfl2)))
              (by rw [Nat.mul_comm]; exact Nat.div_mul_le_self ns2 osc)
          have hhi1_ge : ns1 ≤ osc * lubP ((ns1 + osc - 1) / osc) := by
            have : (ns1 + osc - 1) / osc ≤ lubP ((ns1 + osc - 1) / osc) :=
              le_trans (self_le_clampQ hce1) (lubP_ge _)
            calc ns1 ≤ osc * ((ns1 + osc - 1) / osc) :=
                  (ceil_le_iff hosc).mp le_rfl
              _ ≤ osc * lubP ((ns1 + osc - 1) / osc) :=
                  Nat.mul_le_mul_left _ this
          have hhi2_ge : ns2 ≤ osc * lubP ((ns2 + osc - 1) / osc) := by
            have : (ns2 + osc - 1) / osc ≤ lubP ((ns2 + osc - 1) / osc) :=
              le_trans (self_le_clampQ hce2) (lubP_ge _)
            calc ns2 ≤ osc * ((ns2 + osc - 1) / osc) :=
                  (ceil_le_iff hosc).mp le_rfl
              _ ≤ osc * lubP ((ns2 + osc - 1) / osc) :=
                  Nat.mul_le_mul_left _ this
          -- minimality of the ns1 upper value / maximality of the ns2 lower
          have hmin1 : ∀ p : Nat, prodOK p = true → ns1 ≤ osc * p →
              osc * lubP ((ns1 + osc - 1) / osc) ≤ osc * p := by
            intro p hp hnp
            have hb := prodOK_bounds p hp
            have hcp : (ns1 + osc - 1) / osc ≤ p := (ceil_le_iff hosc).mpr hnp
            exact Nat.mul_le_mul_left _
              (lubP_min (clampQ_le_of_le hb.1 hcp) hp)
          have hmax2 : ∀ p : Nat, prodOK p = true → osc * p ≤ ns2 →
              osc * p ≤ osc * glbP (ns2 / osc) := by
            intro p hp hnp
            have hb := prodOK_bounds p hp
            have hcp : p ≤ ns2 / osc :=
              (Nat.le_div_iff_mul_le hosc).mpr (by rw [Nat.mul_comm]; exact hnp)
            exact Nat.mul_le_mul_left _
              (glbP_max (le_clampQ_of hb.2 hcp) hp)
          have hmax1 : ∀ p : Nat, prodOK p = true → osc * p ≤ ns1 →
              osc * p ≤ osc * glbP (ns1 / osc) := by
            intro p hp hnp
            have hb := prodOK_bounds p hp
            have hcp : p ≤ ns1 / osc :=
              (Nat.le_div_iff_mul_le hosc).mpr (by rw [Nat.mul_comm]; exact hnp)
            exact Nat.mul_le_mul_left _
              (glbP_max (le_clampQ_of hb.2 hcp) hp)
          have hmin2 : ∀ p : Nat, prodOK p = true → ns2 ≤ osc * p →
              osc * lubP ((ns2 + osc - 1) / osc) ≤ osc * p := by
            intro p hp hnp
            have hb := prodOK_bounds p hp
            have hcp : (ns2 + osc - 1) / osc ≤ p := (ceil_le_iff hosc).mpr hnp
            exact Nat.mul_le_mul_left _
              (lubP_min (clampQ_le_of_le hb.1 hcp) hp)
          by_cases hcase1 : ns1 ≤ osc * glbP (ns2 / osc)
          · exact hmin1 _ (glbP_ok _) hcase1
          · push_neg at hcase1
            have heq_lo : osc * glbP (ns1 / osc) = osc * glbP (ns2 / osc) :=
              le_antisymm hlo (hmax1 _ (glbP_ok _) (le_of_lt hcase1))
            by_cases hcase2 : osc * lubP ((ns1 + osc - 1) / osc) ≤ ns2
            · exact hmax2 _ (lubP_ok _) hcase2
            · push_neg at hcase2
              have heq_hi : osc * lubP ((ns1 + osc - 1) / osc) =
                  osc * lubP ((ns2 + osc - 1) / osc) :=
                le_antisymm hhi (hmin2 _ (lubP_ok _) (le_of_lt hcase2))
              omega
    · rw [if_neg hc2]
      exact hhi

/-! ### Divisor computation (C4, C5) -/

lemma calc_divisors_mode14 (mode nsmin pacer cv t1 t2 flags chans d1 d2
    front : Nat) (h : mode = 1 ∨ mode = 4) :
    pci9118_calc_divisors mode nsmin pacer cv t1 t2 flags chans d1 d2 front =
      ⟨t1, i8253_cascade_ns_to_timer I8254_OSC_BASE_4MHZ (max t2 nsmin)
        (flags &&& TRIG_ROUND_NEAREST), d1, d2⟩ := by
  rcases h with rfl | rfl <;> rfl

lemma calc_divisors_mode2 (nsmin pacer cv t1 t2 flags chans d1 d2
    front : Nat) :
    pci9118_calc_divisors 2 nsmin pacer cv t1 t2 flags chans d1 d2 front =
      ⟨(max (max t2 nsmin / I8254_OSC_BASE_4MHZ) pacer *
          (if cv = TRIG_NOW ∧ front = 0 then
            max (max (t1 / I8254_OSC_BASE_4MHZ /
              (max (max t2 nsmin / I8254_OSC_BASE_4MHZ) pacer)) chans)
              (chans + 2)
          else
            max (t1 / I8254_OSC_BASE_4MHZ /
              (max (max t2 nsmin / I8254_OSC_BASE_4MHZ) pacer)) chans) *
          I8254_OSC_BASE_4MHZ) % 4294967296,
       (max (max t2 nsmin / I8254_OSC_BASE_4MHZ) pacer *
          I8254_OSC_BASE_4MHZ) % 4294967296,
       max (max t2 nsmin / I8254_OSC_BASE_4MHZ) pacer,
       if cv = TRIG_NOW ∧ front = 0 then
         max (max (t1 / I8254_OSC_BASE_4MHZ /
           (max (max t2 nsmin / I8254_OSC_BASE_4MHZ) pacer)) chans)
           (chans + 2)
       else
         max (t1 / I8254_OSC_BASE_4MHZ /
           (max (max t2 nsmin / I8254_OSC_BASE_4MHZ) pacer)) chans⟩ := rfl

lemma max_collapse (r chans : Nat) :
    max (max r chans) (chans + 2) = max r (chans + 2) := by
  rw [max_assoc, max_eq_right (by omega : chans ≤ chans + 2)]

/-- C4: in mode 2 `pci9118_calc_divisors` computes `div1` as the convert
period clamped to the board minimum, divided by the clock base and clamped
to the pacer minimum; `div2` as the scan period divided by the clock base
and `div1`, clamped to the channel count — to channel count + 2 for
convert-on-TRIG_NOW with no front padding —; and recomputes the realized
convert period as `div1` times the clock base (no 32-bit wrap under the
u32 input ranges). -/
theorem C4_calc_divisors_mode2 (nsmin pacer cv t1 t2 flags chans d1 d2
    front : Nat) :
    ((pci9118_calc_divisors 2 nsmin pacer cv t1 t2 flags chans d1 d2
        front).div1 = max (max t2 nsmin / I8254_OSC_BASE_4MHZ) pacer) ∧
    (¬ (cv = TRIG_NOW ∧ front = 0) →
      (pci9118_calc_divisors 2 nsmin pacer cv t1 t2 flags chans d1 d2
        front).div2 =
        max (t1 / I8254_OSC_BASE_4MHZ /
          (pci9118_calc_divisors 2 nsmin pacer cv t1 t2 flags chans d1 d2
            front).div1) chans) ∧
    (cv = TRIG_NOW ∧ front = 0 →
      (pci9118_calc_divisors 2 nsmin pacer cv t1 t2 flags chans d1 d2
        front).div2 =
        max (t1 / I8254_OSC_BASE_4MHZ /
          (pci9118_calc_divisors 2 nsmin pacer cv t1 t2 flags chans d1 d2
            front).div1) (chans + 2)) ∧
    (t2 < 4294967296 → nsmin < 4294967296 →
      pacer * I8254_OSC_BASE_4MHZ < 4294967296 →
      (pci9118_calc_divisors 2 nsmin pacer cv t1 t2 flags chans d1 d2
        front).tim2 =
        (pci9118_calc_divisors 2 nsmin pacer cv t1 t2 flags chans d1 d2
          front).div1 * I8254_OSC_BASE_4MHZ) := by
  rw [calc_divisors_mode2]
  refine ⟨rfl, ?_, ?_, ?_⟩
  · intro h
    simp only [if_neg h]
  · intro h
    simp only [if_pos h]
    exact max_collapse _ _
  · intro ht2 hns hp
    simp only []
    apply Nat.mod_eq_of_lt
    rcases Nat.le_total (max t2 nsmin / I8254_OSC_BASE_4MHZ) pacer with
      hle | hge
    · rw [max_eq_right hle]; exact hp
    · rw [max_eq_left hge]
      calc max t2 nsmin / I8254_OSC_BASE_4MHZ * I8254_OSC_BASE_4MHZ
          ≤ max t2 nsmin := Nat.div_mul_le_self _ _
        _ < 4294967296 := max_lt ht2 hns

/-- C4 witness: board pci9118dg (`ai_ns_min = 3000`, `ai_pacer_min = 12`),
convert 10000 ns, scan 100000 ns, 2 channels. -/
theorem C4_calc_divisors_mode2_witness :
    (pci9118_calc_divisors 2 3000 12 16 100000 10000 0 2 0 0 0).div2 =
      max (100000 / I8254_OSC_BASE_4MHZ /
        (pci9118_calc_divisors 2 3000 12 16 100000 10000 0 2 0 0 0).div1) 2 ∧
    (pci9118_calc_divisors 2 3000 12 16 100000 10000 0 2 0 0 0).tim2 =
      (pci9118_calc_divisors 2 3000 12 16 100000 10000 0 2 0 0 0).div1 *
        I8254_OSC_BASE_4MHZ :=
  ⟨(C4_calc_divisors_mode2 3000 12 16 100000 10000 0 2 0 0 0).2.1
      (by decide),
   (C4_calc_divisors_mode2 3000 12 16 100000 10000 0 2 0 0 0).2.2.2
      (by decide) (by decide) (by decide)⟩

lemma mode2_tim1_mono (d1 C t tp : Nat) (hd1 : 0 < d1)
    (htp : tp < 4294967296) (h : t ≤ tp) :
    d1 * max (t / 250 / d1) C * 250 % 4294967296 ≤
    d1 * max (tp / 250 / d1) C * 250 % 4294967296 := by
  have ht : t < 4294967296 := lt_of_le_of_lt h htp
  by_cases hbig : 4294967296 ≤ d1 * C * 250
  · have hclamp : ∀ s : Nat, s < 4294967296 → max (s / 250 / d1) C = C := by
      intro s hs
      apply max_eq_right
      by_contra hgt
      push_neg at hgt
      have h1 : C + 1 ≤ s / 250 / d1 := hgt
      have h2 : (C + 1) * d1 ≤ s / 250 := (Nat.le_div_iff_mul_le hd1).mp h1
      have h3 : (C + 1) * d1 * 250 ≤ s :=
        (Nat.le_div_iff_mul_le (by norm_num)).mp h2
      have h4 : d1 * C * 250 ≤ (C + 1) * d1 * 250 := by
        apply Nat.mul_le_mul_right
        calc d1 * C ≤ d1 * (C + 1) := Nat.mul_le_mul_left _ (by omega)
          _ = (C + 1) * d1 := Nat.mul_comm _ _
      omega
    rw [hclamp t ht, hclamp tp htp]
  · push_neg at hbig
    have hval : ∀ s : Nat, s < 4294967296 →
        d1 * max (s / 250 / d1) C * 250 < 4294967296 := by
      intro s hs
      rcases Nat.le_total (s / 250 / d1) C with hle | hge
      · rw [max_eq_right hle]; exact hbig
      · rw [max_eq_left hge]
        calc d1 * (s / 250 / d1) * 250 ≤ s / 250 * 250 := by
              apply Nat.mul_le_mul_right
              rw [Nat.mul_comm]
              exact Nat.div_mul_le_self (s / 250) d1
          _ ≤ s := Nat.div_mul_le_self s 250
          _ < 4294967296 := hs
    rw [Nat.mod_eq_of_lt (hval t ht), Nat.mod_eq_of_lt (hval tp htp)]
    apply Nat.mul_le_mul_right
    apply Nat.mul_le_mul_left
    exact max_le_max (Nat.div_le_div_right (Nat.div_le_div_right h)) le_rfl

lemma mode2_div1_mul_lt (nsmin pacer t2 : Nat) (ht2 : t2 < 4294967296)
    (hns : nsmin < 4294967296) (hp : pacer * 250 < 4294967296) :
    max (max t2 nsmin / 250) pacer * 250 < 4294967296 := by
  rcases Nat.le_total (max t2 nsmin / 250) pacer with hle | hge
  · rw [max_eq_right hle]; exact hp
  · rw [max_eq_left hge]
    calc max t2 nsmin / 250 * 250 ≤ max t2 nsmin := Nat.div_mul_le_self _ _
      _ < 4294967296 := max_lt ht2 hns

/-- C5: for each mode that `pci9118_calc_divisors` implements (1, 4 and
2), the realized convert (sample) period is monotone in the requested
convert period and never below the board's minimum sample period
(`ai_ns_min`, equal to the clock base times the realizable pacer minimum),
and the realized scan period is monotone in the requested scan period;
requests range over the u32 input domain. -/
theorem C5_realized_period_monotone_min
    (mode nsmin pacer cv t1 t2 t1p t2p flags chans d1 d2 front : Nat)
    (hmode : mode = 1 ∨ mode = 2 ∨ mode = 4)
    (hns : nsmin = I8254_OSC_BASE_4MHZ * pacer)
    (hpm : prodOK pacer = true)
    (h32 : nsmin < 4294967296) :
    (t2 ≤ t2p → t2p < 4294967296 →
      (pci9118_calc_divisors mode nsmin pacer cv t1 t2 flags chans d1 d2
        front).tim2 ≤
      (pci9118_calc_divisors mode nsmin pacer cv t1 t2p flags chans d1 d2
        front).tim2) ∧
    (t2 < 4294967296 →
      nsmin ≤ (pci9118_calc_divisors mode nsmin pacer cv t1 t2 flags chans
        d1 d2 front).tim2) ∧
    (t1 ≤ t1p → t1p < 4294967296 →
      (pci9118_calc_divisors mode nsmin pacer cv t1 t2 flags chans d1 d2
        front).tim1 ≤
      (pci9118_calc_divisors mode nsmin pacer cv t1p t2 flags chans d1 d2
        front).tim1) := by
  have hosc : 0 < I8254_OSC_BASE_4MHZ := by norm_num [I8254_OSC_BASE_4MHZ]
  have hp250 : pacer * 250 < 4294967296 := by
    have hn : nsmin = 250 * pacer := by rw [hns]; norm_num [I8254_OSC_BASE_4MHZ]
    omega
  have hpos : 0 < pacer := by
    have := (prodOK_bounds pacer hpm).1; omega
  rcases hmode with rfl | rfl | rfl
  case inl =>
    refine ⟨?_, ?_, ?_⟩
    · intro hle _
      rw [calc_divisors_mode14 1 nsmin pacer cv t1 t2 flags chans d1 d2 front
          (Or.inl rfl),
        calc_divisors_mode14 1 nsmin pacer cv t1 t2p flags chans d1 d2 front
          (Or.inl rfl)]
      exact cascade_mono _ _ hosc (max_le_max hle le_rfl)
    · intro _
      rw [calc_divisors_mode14 1 nsmin pacer cv t1 t2 flags chans d1 d2 front
          (Or.inl rfl)]
      rw [hns]
      exact cascade_ge _ _ _ _ hosc hpm (le_max_right _ _)
    · intro hle _
      rw [calc_divisors_mode14 1 nsmin pacer cv t1 t2 flags chans d1 d2 front
          (Or.inl rfl),
        calc_divisors_mode14 1 nsmin pacer cv t1p t2 flags chans d1 d2 front
          (Or.inl rfl)]
      exact hle
  case inr.inr =>
    refine ⟨?_, ?_, ?_⟩
    · intro hle _
      rw [calc_divisors_mode14 4 nsmin pacer cv t1 t2 flags chans d1 d2 front
          (Or.inr rfl),
        calc_divisors_mode14 4 nsmin pacer cv t1 t2p flags chans d1 d2 front
          (Or.inr rfl)]
      exact cascade_mono _ _ hosc (max_le_max hle le_rfl)
    · intro _
      rw [calc_divisors_mode14 4 nsmin pacer cv t1 t2 flags chans d1 d2 front
          (Or.inr rfl)]
      rw [hns]
      exact cascade_ge _ _ _ _ hosc hpm (le_max_right _ _)
    · intro hle _
      rw [calc_divisors_mode14 4 nsmin pacer cv t1 t2 flags chans d1 d2 front
          (Or.inr rfl),
        calc_divisors_mode14 4 nsmin pacer cv t1p t2 flags chans d1 d2 front
          (Or.inr rfl)]
      exact hle
  case inr.inl =>
    refine ⟨?_, ?_, ?_⟩
    · intro hle h32p
      rw [calc_divisors_mode2, calc_divisors_mode2]
      simp only [I8254_OSC_BASE_4MHZ]
      have h32t : t2 < 4294967296 := lt_of_le_of_lt hle h32p
      rw [Nat.mod_eq_of_lt (mode2_div1_mul_lt nsmin pacer t2 h32t h32 hp250),
        Nat.mod_eq_of_lt (mode2_div1_mul_lt nsmin pacer t2p h32p h32 hp250)]
      exact Nat.mul_le_mul_right _
        (max_le_max (Nat.div_le_div_right (max_le_max hle le_rfl)) le_rfl)
    · intro h32t
      rw [calc_divisors_mode2]
      simp only [I8254_OSC_BASE_4MHZ]
      rw [Nat.mod_eq_of_lt (mode2_div1_mul_lt nsmin pacer t2 h32t h32 hp250)]
      calc nsmin = pacer * 250 := by
            rw [hns, Nat.mul_comm]; norm_num [I8254_OSC_BASE_4MHZ]
        _ ≤ max (max t2 nsmin / 250) pacer * 250 :=
            Nat.mul_le_mul_right _ (le_max_right _ _)
    · intro hle h32p
      rw [calc_divisors_mode2, calc_divisors_mode2]
      simp only [I8254_OSC_BASE_4MHZ]
      have hC : ∀ s : Nat,
          (if cv = TRIG_NOW ∧ front = 0 then
            max (max (s / 250 / (max (max t2 nsmin / 250) pacer)) chans)
              (chans + 2)
          else
            max (s / 250 / (max (max t2 nsmin / 250) pacer)) chans) =
          max (s / 250 / (max (max t2 nsmin / 250) pacer))
            (if cv = TRIG_NOW ∧ front = 0 then chans + 2 else chans) := by
        intro s
        split_ifs with hcnd
        · exact max_collapse _ _
        · rfl
      rw [hC t1, hC t1p]
      exact mode2_tim1_mono (max (max t2 nsmin / 250) pacer) _ t1 t1p
        (lt_of_lt_of_le hpos (le_max_right _ _)) h32p hle

/-- C5 witness: board pci9118dg (`ai_ns_min = 3000 = 250 * 12`,
`ai_pacer_min = 12`), mode 1: a convert request of 5000 ns realizes at
least the 3000 ns hardware minimum. -/
theorem C5_realized_period_monotone_min_witness :
    3000 ≤ (pci9118_calc_divisors 1 3000 12 16 0 5000 0 1 0 0 0).tim2 :=
  (C5_realized_period_monotone_min 1 3000 12 16 0 5000 0 6000 0 1 0 0 0
    (Or.inl rfl) (by norm_num [I8254_OSC_BASE_4MHZ]) (by decide)
    (by norm_num)).2.1 (by norm_num)

/-! ### Acceptance facts about command validation (C3, C10) -/

lemma mask84_cases (x : Nat) (hm : x &&& 84 = x) (hu : x &&& (x - 1) = 0)
    (hx : x ≠ 0) : x = 4 ∨ x = 16 ∨ x = 64 := by
  have hb : x ≤ 84 := by
    conv_lhs => rw [← hm]
    exact Nat.and_le_right
  have key : ∀ y : Fin 85,
      y.val &&& 84 = y.val → y.val &&& (y.val - 1) = 0 → y.val ≠ 0 →
        y.val = 4 ∨ y.val = 16 ∨ y.val = 64 := by decide
  exact key ⟨x, by omega⟩ hm hu hx

lemma mask4_cases (x : Nat) (hm : x &&& 4 = x) (hx : x ≠ 0) : x = 4 := by
  have hb : x ≤ 4 := by
    conv_lhs => rw [← hm]
    exact Nat.and_le_right
  have key : ∀ y : Fin 5, y.val &&& 4 = y.val → y.val ≠ 0 → y.val = 4 := by
    decide
  exact key ⟨x, by omega⟩ hm hx

lemma mask82_cases (x : Nat) (hm : x &&& 82 = x) (hu : x &&& (x - 1) = 0)
    (hx : x ≠ 0) : x = 2 ∨ x = 16 ∨ x = 64 := by
  have hb : x ≤ 82 := by
    conv_lhs => rw [← hm]
    exact Nat.and_le_right
  have key : ∀ y : Fin 83,
      y.val &&& 82 = y.val → y.val &&& (y.val - 1) = 0 → y.val ≠ 0 →
        y.val = 2 ∨ y.val = 16 ∨ y.val = 64 := by decide
  exact key ⟨x, by omega⟩ hm hu hx

lemma mask80_cases (x : Nat) (hm : x &&& 80 = x) (hu : x &&& (x - 1) = 0)
    (hx : x ≠ 0) : x = 16 ∨ x = 64 := by
  have hb : x ≤ 80 := by
    conv_lhs => rw [← hm]
    exact Nat.and_le_right
  have key : ∀ y : Fin 81,
      y.val &&& 80 = y.val → y.val &&& (y.val - 1) = 0 → y.val ≠ 0 →
        y.val = 16 ∨ y.val = 64 := by decide
  exact key ⟨x, by omega⟩ hm hu hx

lemma step1_mask (cfg : Cfg) (cmd : AiCmd)
    (h : (cmdtest_step1 cfg cmd).2 = false) :
    ((cmdtest_step1 cfg cmd).1.scan_begin_src &&&
        (TRIG_FOLLOW ||| (if cfg.master then TRIG_TIMER ||| TRIG_EXT else 0))
        = (cmdtest_step1 cfg cmd).1.scan_begin_src ∧
      (cmdtest_step1 cfg cmd).1.scan_begin_src ≠ 0) ∧
    ((cmdtest_step1 cfg cmd).1.convert_src &&&
        (TRIG_TIMER ||| TRIG_EXT ||| (if cfg.master then TRIG_NOW else 0))
        = (cmdtest_step1 cfg cmd).1.convert_src ∧
      (cmdtest_step1 cfg cmd).1.convert_src ≠ 0) := by
  simp only [cmdtest_step1, cfc_check_trigger_src, Bool.or_eq_false_iff,
    beq_eq_false_iff_ne, bne_eq_false_iff_eq, ne_eq] at h ⊢
  refine ⟨⟨land_mask_idem _ _, ?_⟩, ⟨land_mask_idem _ _, ?_⟩⟩ <;> tauto

lemma step2_facts (c : AiCmd) (h : cmdtest_step2 c = false) :
    c.scan_begin_src &&& (c.scan_begin_src - 1) = 0 ∧
    c.convert_src &&& (c.convert_src - 1) = 0 ∧
    (c.scan_begin_src &&& (TRIG_TIMER ||| TRIG_EXT) ≠ 0 →
      c.convert_src &&& (TRIG_TIMER ||| TRIG_NOW) ≠ 0) ∧
    (c.scan_begin_src = TRIG_FOLLOW →
      c.convert_src &&& (TRIG_TIMER ||| TRIG_EXT) ≠ 0) := by
  simp only [cmdtest_step2, cfc_check_trigger_is_unique, Bool.or_eq_false_iff,
    Bool.and_eq_false_iff, bne_eq_false_iff_eq, beq_eq_false_iff_ne,
    ne_eq] at h
  refine ⟨by tauto, by tauto, by tauto, by tauto⟩

lemma step3_srcs (cfg : Cfg) (c : AiCmd) :
    (cmdtest_step3 cfg c).1.scan_begin_src =
      (if c.scan_begin_src = TRIG_TIMER ∧ c.convert_src = TRIG_TIMER ∧
          c.scan_end_arg = 1 then TRIG_FOLLOW else c.scan_begin_src) ∧
    (cmdtest_step3 cfg c).1.convert_src = c.convert_src := by
  constructor <;> rfl

lemma step4_srcs (cfg : Cfg) (c : AiCmd) :
    (cmdtest_step4 cfg c).1.scan_begin_src = c.scan_begin_src ∧
    (cmdtest_step4 cfg c).1.convert_src = c.convert_src := by
  unfold cmdtest_step4
  split_ifs <;> exact ⟨rfl, rfl⟩

/-- Decomposition of an accepted validation run: steps 1 and 2 passed and
the returned command is the step-4 output. -/
lemma cmdtest_accept_decomp (cfg : Cfg) (cmd : AiCmd) :
    (pci9118_ai_cmdtest cfg cmd).step = 0 →
    ((cmdtest_step1 cfg cmd).2 = false ∧
     cmdtest_step2 (cmdtest_step1 cfg cmd).1 = false ∧
     (pci9118_ai_cmdtest cfg cmd).cmd =
       (cmdtest_step4 cfg (cmdtest_step3 cfg (cmdtest_step1 cfg cmd).1).1).1) := by
  simp only [pci9118_ai_cmdtest]
  split
  next h1 => intro h; simp at h
  next h1 =>
    split
    next h2 => intro h; simp at h
    next h2 =>
      split
      next => intro h; simp at h
      next =>
        split
        next => intro h; simp at h
        next =>
          split
          next => intro _; exact ⟨by simpa using h1, by simpa using h2, rfl⟩
          next =>
            split
            next => intro h; simp at h
            next => intro _; exact ⟨by simpa using h1, by simpa using h2, rfl⟩

set_option maxHeartbeats 1000000 in
/-- Any command accepted by `pci9118_ai_cmdtest` leaves validation with
one of six scan-begin/convert source pairs. -/
lemma cmdtest_accept_srcs (cfg : Cfg) (cmd : AiCmd)
    (h : (pci9118_ai_cmdtest cfg cmd).step = 0) :
    ((pci9118_ai_cmdtest cfg cmd).cmd.scan_begin_src = TRIG_FOLLOW ∧
      ((pci9118_ai_cmdtest cfg cmd).cmd.convert_src = TRIG_TIMER ∨
       (pci9118_ai_cmdtest cfg cmd).cmd.convert_src = TRIG_EXT)) ∨
    ((pci9118_ai_cmdtest cfg cmd).cmd.scan_begin_src = TRIG_TIMER ∧
      ((pci9118_ai_cmdtest cfg cmd).cmd.convert_src = TRIG_TIMER ∨
       (pci9118_ai_cmdtest cfg cmd).cmd.convert_src = TRIG_NOW)) ∨
    ((pci9118_ai_cmdtest cfg cmd).cmd.scan_begin_src = TRIG_EXT ∧
      ((pci9118_ai_cmdtest cfg cmd).cmd.convert_src = TRIG_TIMER ∨
       (pci9118_ai_cmdtest cfg cmd).cmd.convert_src = TRIG_NOW)) := by
  obtain ⟨he1, he2, hcmd⟩ := cmdtest_accept_decomp cfg cmd h
  rw [hcmd]
  have hs4 := step4_srcs cfg (cmdtest_step3 cfg (cmdtest_step1 cfg cmd).1).1
  have hs3 := step3_srcs cfg (cmdtest_step1 cfg cmd).1
  have hm1 := step1_mask cfg cmd he1
  have hm2 := step2_facts (cmdtest_step1 cfg cmd).1 he2
  rw [hs4.1, hs4.2, hs3.1, hs3.2]
  have hsb : (cmdtest_step1 cfg cmd).1.scan_begin_src = 4 ∨
      (cmdtest_step1 cfg cmd).1.scan_begin_src = 16 ∨
      (cmdtest_step1 cfg cmd).1.scan_begin_src = 64 := by
    cases hmr : cfg.master with
    | true =>
      apply mask84_cases _ _ hm2.1 hm1.1.2
      have hmm := hm1.1.1
      rw [hmr] at hmm
      simpa [TRIG_FOLLOW, TRIG_TIMER, TRIG_EXT] using hmm
    | false =>
      refine Or.inl (mask4_cases _ ?_ hm1.1.2)
      have hmm := hm1.1.1
      rw [hmr] at hmm
      simpa [TRIG_FOLLOW] using hmm
  have hcv : (cmdtest_step1 cfg cmd).1.convert_src = 2 ∨
      (cmdtest_step1 cfg cmd).1.convert_src = 16 ∨
      (cmdtest_step1 cfg cmd).1.convert_src = 64 := by
    cases hmr : cfg.master with
    | true =>
      apply mask82_cases _ _ hm2.2.1 hm1.2.2
      have hmm := hm1.2.1
      rw [hmr] at hmm
      simpa [TRIG_TIMER, TRIG_EXT, TRIG_NOW] using hmm
    | false =>
      have hmm := hm1.2.1
      rw [hmr] at hmm
      have h80 := mask80_cases _
        (by simpa [TRIG_TIMER, TRIG_EXT] using hmm) hm2.2.1 hm1.2.2
      tauto
  have hcompat1 := hm2.2.2.1
  have hcompat2 := hm2.2.2.2
  clear hm1 hm2 hcmd h he1 he2 hs3 hs4
  simp only [TRIG_FOLLOW, TRIG_TIMER, TRIG_EXT, TRIG_NOW,
    TRIG_INT] at hcompat1 hcompat2 ⊢
  rcases hsb with hsb | hsb | hsb <;> rcases hcv with hcv | hcv | hcv <;>
    rw [hsb, hcv] at hcompat1 hcompat2 ⊢
  · -- (follow, now): excluded, a follow scan needs timer/ext convert
    exact absurd (hcompat2 rfl) (by decide)
  · -- (follow, timer)
    simp
  · -- (follow, ext)
    simp
  · -- (timer, now)
    simp
  · -- (timer, timer): rewritten to follow when scan_end_arg = 1
    by_cases hse : (cmdtest_step1 cfg cmd).1.scan_end_arg = 1 <;> simp [hse]
  · -- (timer, ext): excluded by the timer/ext-scan compatibility rule
    exact absurd (hcompat1 (by decide)) (by decide)
  · -- (ext, now)
    simp
  · -- (ext, timer)
    simp
  · -- (ext, ext): excluded
    exact absurd (hcompat1 (by decide)) (by decide)

/-- The nested mode tests of `pci9118_ai_cmd` agree with the mode
selection table, defaulting to the stale mode. -/
lemma mode_select_do (sb cv d0 : Nat) :
    (if sb = TRIG_FOLLOW ∧ cv = TRIG_EXT then 3
     else if sb = TRIG_TIMER ∧ (cv = TRIG_TIMER ∨ cv = TRIG_NOW) then 2
     else if (sb = TRIG_FOLLOW ∨ sb = TRIG_EXT ∨ sb = TRIG_INT) ∧
         cv = TRIG_TIMER then (if sb = TRIG_EXT then 4 else 1)
     else d0) = (ai_mode_select sb cv).getD d0 := by
  by_cases h3 : sb = TRIG_FOLLOW ∧ cv = TRIG_EXT
  · obtain ⟨hsb, hcv⟩ := h3
    subst hsb; subst hcv
    simp [ai_mode_select, TRIG_FOLLOW, TRIG_TIMER, TRIG_EXT, TRIG_NOW,
      TRIG_INT]
  · by_cases h2 : sb = TRIG_TIMER ∧ (cv = TRIG_TIMER ∨ cv = TRIG_NOW)
    · obtain ⟨hsb, hcv⟩ := h2
      subst hsb
      rcases hcv with hcv | hcv <;> subst hcv <;>
        simp [ai_mode_select, TRIG_FOLLOW, TRIG_TIMER, TRIG_EXT, TRIG_NOW,
          TRIG_INT]
    · by_cases h1 : (sb = TRIG_FOLLOW ∨ sb = TRIG_EXT ∨ sb = TRIG_INT) ∧
          cv = TRIG_TIMER
      · obtain ⟨hsb, hcv⟩ := h1
        subst hcv
        rcases hsb with hsb | hsb | hsb <;> subst hsb <;>
          simp [ai_mode_select, TRIG_FOLLOW, TRIG_TIMER, TRIG_EXT, TRIG_NOW,
            TRIG_INT]
      · rw [if_neg h3, if_neg h2, if_neg h1]
        unfold ai_mode_select
        rw [if_neg h1, if_neg h2, if_neg h3]
        rfl

/-- The mode stored by `pci9118_ai_cmd` is exactly the one picked by the
three source-pair tests, or the stale `ai_do` when none fires. -/
lemma ai_cmd_setup_mode (cfg : Cfg) (d0 dv1 dv2 : Nat) (nev : Bool)
    (cmd : AiCmd) (rs : RunSetup)
    (h : pci9118_ai_cmd_setup cfg d0 dv1 dv2 nev cmd = Except.ok rs) :
    rs.ai_do =
      (ai_mode_select cmd.scan_begin_src cmd.convert_src).getD d0 := by
  simp only [pci9118_ai_cmd_setup] at h
  split at h
  · exact absurd h (by simp)
  · split at h
    · exact absurd h (by simp)
    · simp only [Except.ok.injEq] at h
      rw [← h]
      exact mode_select_do cmd.scan_begin_src cmd.convert_src d0

/-- C3 counterexample: the command {start now, scan-begin external,
convert immediate, stop after 1 count, one channel} is accepted by
`pci9118_ai_cmdtest` (step 0), yet none of the three mode cases of
`pci9118_ai_cmd` fires — `ai_do` keeps its stale value (here 0), outside
the claimed three-case table. -/
theorem C3_counterexample :
    (pci9118_ai_cmdtest ⟨true, 3000, 12, false, 8, 255, 0⟩
      ⟨2, 0, 64, 0, 2, 3000, 32, 1, 32, 1, 1, 0, [0]⟩).step = 0 ∧
    (pci9118_ai_cmdtest ⟨true, 3000, 12, false, 8, 255, 0⟩
      ⟨2, 0, 64, 0, 2, 3000, 32, 1, 32, 1, 1, 0, [0]⟩).cmd.scan_begin_src
        = TRIG_EXT ∧
    (pci9118_ai_cmdtest ⟨true, 3000, 12, false, 8, 255, 0⟩
      ⟨2, 0, 64, 0, 2, 3000, 32, 1, 32, 1, 1, 0, [0]⟩).cmd.convert_src
        = TRIG_NOW ∧
    ai_mode_select TRIG_EXT TRIG_NOW = none ∧
    (pci9118_ai_cmd_setup ⟨true, 3000, 12, false, 8, 255, 0⟩ 0 0 0 false
      ⟨2, 0, 64, 0, 2, 3000, 32, 1, 32, 1, 1, 0, [0]⟩).toOption.map
        RunSetup.ai_do = some 0 := by decide

/-- C3 amended: `pci9118_ai_cmd` assigns modes per the decision table
(scan-begin follow/external/internal with convert=timer gives mode 1,
or 4 for an external scan-begin; scan-begin timer with convert timer or
immediate gives mode 2; scan-begin follow with convert external gives
mode 3; otherwise the stale mode survives), and among commands accepted by
`pci9118_ai_cmdtest` exactly one source pair falls outside the table:
scan-begin external with convert immediate. -/
theorem C3_mode_assignment_amended (cfg : Cfg) (cmd : AiCmd)
    (h : (pci9118_ai_cmdtest cfg cmd).step = 0) :
    (∀ sb cv : Nat,
      ((sb = TRIG_FOLLOW ∨ sb = TRIG_EXT ∨ sb = TRIG_INT) ∧ cv = TRIG_TIMER →
        ai_mode_select sb cv = some (if sb = TRIG_EXT then 4 else 1)) ∧
      (sb = TRIG_TIMER ∧ (cv = TRIG_TIMER ∨ cv = TRIG_NOW) →
        ai_mode_select sb cv = some 2) ∧
      (sb = TRIG_FOLLOW ∧ cv = TRIG_EXT → ai_mode_select sb cv = some 3)) ∧
    (∀ (cfg2 : Cfg) (d0 dv1 dv2 : Nat) (nev : Bool) (cmd2 : AiCmd)
        (rs : RunSetup),
      pci9118_ai_cmd_setup cfg2 d0 dv1 dv2 nev cmd2 = Except.ok rs →
      rs.ai_do =
        (ai_mode_select cmd2.scan_begin_src cmd2.convert_src).getD d0) ∧
    (ai_mode_select (pci9118_ai_cmdtest cfg cmd).cmd.scan_begin_src
        (pci9118_ai_cmdtest cfg cmd).cmd.convert_src = none ↔
      ((pci9118_ai_cmdtest cfg cmd).cmd.scan_begin_src = TRIG_EXT ∧
       (pci9118_ai_cmdtest cfg cmd).cmd.convert_src = TRIG_NOW)) := by
  refine ⟨?_, ?_, ?_⟩
  · intro sb cv
    refine ⟨?_, ?_, ?_⟩
    · rintro ⟨hsb | hsb | hsb, hcv⟩ <;> subst hsb <;> subst hcv <;> decide
    · rintro ⟨hsb, hcv | hcv⟩ <;> subst hsb <;> subst hcv <;> decide
    · rintro ⟨hsb, hcv⟩; subst hsb; subst hcv; decide
  · intro cfg2 d0 dv1 dv2 nev cmd2 rs hok
    exact ai_cmd_setup_mode cfg2 d0 dv1 dv2 nev cmd2 rs hok
  · rcases cmdtest_accept_srcs cfg cmd h with
      ⟨hsb, hcv | hcv⟩ | ⟨hsb, hcv | hcv⟩ | ⟨hsb, hcv | hcv⟩ <;>
      rw [hsb, hcv] <;> decide

/-- C3 witness: a follow/timer command is accepted by validation, and the
amended table assigns it mode 1. -/
theorem C3_mode_assignment_amended_witness :
    ai_mode_select TRIG_FOLLOW TRIG_TIMER = some (if (4 : Nat) = TRIG_EXT
      then 4 else 1) :=
  ((C3_mode_assignment_amended ⟨true, 3000, 12, false, 8, 255, 0⟩
      ⟨2, 0, 4, 0, 16, 3000, 32, 2, 32, 5, 2, 0, [0, 65536]⟩
      (by decide)).1 TRIG_FOLLOW TRIG_TIMER).1 ⟨Or.inl rfl, rfl⟩

/-- C10: a TRIG_TIMER/TRIG_TIMER command whose scan holds a single sample
is silently rewritten during argument checking: scan-begin becomes
TRIG_FOLLOW with argument 0 and the convert period takes the old
scan-begin period (then only subjected to the ordinary minimum), the
rewrite raises no error in step 3, and with otherwise-benign fields the
command is accepted and classified as a single-timer (mode 1) request. -/
theorem C10_silent_rewrite (cfg : Cfg) (cmd : AiCmd)
    (hm : cfg.master = true)
    (hss : cmd.start_src = TRIG_NOW) (hsa : cmd.start_arg = 0)
    (hsb : cmd.scan_begin_src = TRIG_TIMER)
    (hcv : cmd.convert_src = TRIG_TIMER)
    (hses : cmd.scan_end_src = TRIG_COUNT) (hse : cmd.scan_end_arg = 1)
    (hsts : cmd.stop_src = TRIG_NONE) (hsta : cmd.stop_arg = 0)
    (hcl : cmd.chanlist_len = 1) (hchan : cmd.chanlist = [])
    (hns : cfg.ai_ns_min ≤ cmd.scan_begin_arg)
    (hfix : i8253_cascade_ns_to_timer I8254_OSC_BASE_4MHZ
      cmd.scan_begin_arg cmd.flags = cmd.scan_begin_arg) :
    (cmdtest_step3 cfg cmd).1.scan_begin_src = TRIG_FOLLOW ∧
    (cmdtest_step3 cfg cmd).1.scan_begin_arg = 0 ∧
    (cmdtest_step3 cfg cmd).1.convert_arg = cmd.scan_begin_arg ∧
    (cmdtest_step3 cfg cmd).2 = false ∧
    (pci9118_ai_cmdtest cfg cmd).step = 0 ∧
    ai_mode_select (pci9118_ai_cmdtest cfg cmd).cmd.scan_begin_src
      (pci9118_ai_cmdtest cfg cmd).cmd.convert_src = some 1 := by
  have hlt : ¬ cmd.scan_begin_arg < cfg.ai_ns_min := Nat.not_lt.mpr hns
  have e1 : 2 &&& 194 = 2 := by decide
  have e2 : 16 &&& 84 = 16 := by decide
  have e3 : 16 &&& 82 = 16 := by decide
  have e4 : 32 &&& 32 = 32 := by decide
  have e5 : 1 &&& 97 = 1 := by decide
  have e6 : 2 &&& 1 = 0 := by decide
  have e7 : 16 &&& 15 = 0 := by decide
  have e8 : 1 &&& 0 = 0 := by decide
  have e9 : 16 &&& 80 = 16 := by decide
  have e10 : 16 &&& 18 = 16 := by decide
  have e11 : 16 &&& 68 = 0 := by decide
  refine ⟨?_, ?_, ?_, ?_, ?_, ?_⟩ <;>
    simp [e1, e2, e3, e4, e5, e6, e7, e8, e9, e10, e11,
      pci9118_ai_cmdtest, cmdtest_step1, cmdtest_step2, cmdtest_step3,
      cmdtest_step4, cfc_check_trigger_src, cfc_check_trigger_is_unique,
      cfc_check_trigger_arg_is, cfc_check_trigger_arg_min,
      cfc_check_trigger_arg_max, ai_mode_select, hm, hss, hsa, hsb, hcv,
      hses, hse, hsts, hsta, hcl, hchan, hlt, hfix, TRIG_NONE, TRIG_NOW,
      TRIG_FOLLOW, TRIG_TIMER, TRIG_COUNT, TRIG_EXT, TRIG_INT]

/-- C10 witness: a concrete single-sample dual-timer command is rewritten
to follow/timer, accepted, and classified as mode 1. -/
theorem C10_silent_rewrite_witness :
    (cmdtest_step3 ⟨true, 3000, 12, false, 8, 255, 0⟩
        ⟨2, 0, 16, 3000, 16, 0, 32, 1, 1, 0, 1, 0, []⟩).1.scan_begin_src =
      TRIG_FOLLOW ∧
    (cmdtest_step3 ⟨true, 3000, 12, false, 8, 255, 0⟩
        ⟨2, 0, 16, 3000, 16, 0, 32, 1, 1, 0, 1, 0, []⟩).1.scan_begin_arg =
      0 ∧
    (cmdtest_step3 ⟨true, 3000, 12, false, 8, 255, 0⟩
        ⟨2, 0, 16, 3000, 16, 0, 32, 1, 1, 0, 1, 0, []⟩).1.convert_arg =
      3000 ∧
    (cmdtest_step3 ⟨true, 3000, 12, false, 8, 255, 0⟩
        ⟨2, 0, 16, 3000, 16, 0, 32, 1, 1, 0, 1, 0, []⟩).2 = false ∧
    (pci9118_ai_cmdtest ⟨true, 3000, 12, false, 8, 255, 0⟩
        ⟨2, 0, 16, 3000, 16, 0, 32, 1, 1, 0, 1, 0, []⟩).step = 0 ∧
    ai_mode_select
      (pci9118_ai_cmdtest ⟨true, 3000, 12, false, 8, 255, 0⟩
        ⟨2, 0, 16, 3000, 16, 0, 32, 1, 1, 0, 1, 0, []⟩).cmd.scan_begin_src
      (pci9118_ai_cmdtest ⟨true, 3000, 12, false, 8, 255, 0⟩
        ⟨2, 0, 16, 3000, 16, 0, 32, 1, 1, 0, 1, 0, []⟩).cmd.convert_src =
      some 1 :=
  C10_silent_rewrite ⟨true, 3000, 12, false, 8, 255, 0⟩
    ⟨2, 0, 16, 3000, 16, 0, 32, 1, 1, 0, 1, 0, []⟩
    rfl rfl rfl rfl rfl rfl rfl rfl rfl rfl rfl (by decide) (by decide)

end PCI9118
